import Mathlib

/-!
Verification of the CapitalCompass fund-holdings ingestion and resolution
subsystem.  Python modules under `src/pipeline/` are shallowly embedded as
executable Lean definitions: pandas frames become lists of records whose
cells are `Option` values (`none` models `NaN`/`None`), machine floats are
modelled by exact rationals, and fallible code returns `Option`/`Except`.
-/

namespace CC

/-! ## Shared helpers -/

/-- Sum of the present values of an optional-number column (pandas
`Series.sum` skips `NaN` cells). -/
def sumOpt (l : List (Option ℚ)) : ℚ :=
  (l.filterMap id).sum

/-- Python truthiness of an optional string (`None` and `""` are falsy). -/
def truthy : Option String → Bool
  | none => false
  | some s => s ≠ ""

/-- A `NaN`-aware sort key: `none` cells sink below every number, the
place pandas puts them in a descending `sort_values`. -/
def owKey : Option ℚ → WithBot ℚ
  | none => ⊥
  | some q => (q : WithBot ℚ)

/-- Keyed lookup in an association list (Python `dict.get` / reading a
file at a path): the value at the first matching key. -/
def alistGet {κ β : Type} [DecidableEq κ] (d : List (κ × β)) (k : κ) : Option β :=
  (d.find? (fun e => e.1 = k)).map (·.2)

/-- Keyed update (Python `d[k] = v` / writing a file at a path): replace
the value at an existing key, else append the binding. -/
def alistSet {κ β : Type} [DecidableEq κ] : List (κ × β) → κ → β → List (κ × β)
  | [], k, v => [(k, v)]
  | e :: rest, k, v =>
      if e.1 = k then (k, v) :: rest else e :: alistSet rest k v

/-- Ascending in-memory sort by a key (Python `list.sort(key=...)` /
pandas `sort_values(ascending=True)`); insertion sort is an executable
model of the sort, which is only specified up to key order. -/
def sortAscBy {α : Type} {κ : Type} [LinearOrder κ] (k : α → κ) (l : List α) : List α :=
  List.insertionSort (fun a b => k a ≤ k b) l

/-- Descending sort by a key (pandas `sort_values(ascending=False)`,
Python `sorted(..., reverse=True)`). -/
def sortDescBy {α : Type} {κ : Type} [LinearOrder κ] (k : α → κ) (l : List α) : List α :=
  List.insertionSort (fun a b => k b ≤ k a) l

/-! ## `bdif_parser.BDIFParser._parse_float`

The numeric-cell parser of the BDIF PDF parser
(`src/pipeline/bdif_parser.py`, lines 274-294).  It is embedded over
`List Char`; `pyFloat` models the decimal fragment of Python's builtin
`float` constructor (optional sign, digits with at most one dot, optional
exponent). -/

namespace BDIFParser

/-- Characters stripped by Python `str.strip()` (ASCII whitespace plus the
no-break space, which `str.isspace` also accepts). -/
def isPySpace (c : Char) : Bool :=
  c = ' ' || c = '\t' || c = '\n' || c = '\r' || c = '\x0b' || c = '\x0c'
    || c = '\u00A0'

/-- Python `str.strip()`. -/
def pyStrip (l : List Char) : List Char :=
  ((l.dropWhile isPySpace).reverse.dropWhile isPySpace).reverse

/-- Python `str.replace(c, "")`: delete every occurrence of a character. -/
def removeChar (c : Char) (l : List Char) : List Char :=
  l.filter (fun x => x ≠ c)

/-- Value of a digit string, most significant first. -/
def digitsVal (l : List Char) : ℕ :=
  l.foldl (fun a c => 10 * a + (c.toNat - 48)) 0

/-- A non-empty all-digit string. -/
def isDigits (l : List Char) : Bool :=
  !l.isEmpty && l.all (·.isDigit)

/-- Signed exponent part after `e`: optional sign then digits. -/
def parseExp : List Char → Option ℤ
  | [] => none
  | '+' :: rest => if isDigits rest then some (digitsVal rest : ℤ) else none
  | '-' :: rest => if isDigits rest then some (-(digitsVal rest : ℤ)) else none
  | l => if isDigits l then some (digitsVal l : ℤ) else none

/-- Mantissa: digits with at most one dot, at least one digit overall. -/
def parseMantissa (l : List Char) : Option ℚ :=
  match l.splitOn '.' with
  | [ip] =>
      if isDigits ip then some (digitsVal ip : ℚ) else none
  | [ip, fp] =>
      if (ip.all (·.isDigit)) && (fp.all (·.isDigit)) && !(ip.isEmpty && fp.isEmpty)
      then some ((digitsVal ip : ℚ) + (digitsVal fp : ℚ) / (10 : ℚ) ^ fp.length)
      else none
  | _ => none

/-- Unsigned float literal: mantissa with optional `e`-exponent. -/
def parseUnsigned (l : List Char) : Option ℚ :=
  match l.splitOn 'e' with
  | [m] => parseMantissa m
  | [m, e] =>
      match parseMantissa m, parseExp e with
      | some q, some z => some (q * (10 : ℚ) ^ z)
      | _, _ => none
  | _ => none

/-- Model of Python `float(str)` on decimal literals (`inf`/`nan` and digit
underscores are outside the strings this parser can produce; case only
matters for the exponent marker, so `E` is folded to `e`). -/
def pyFloat (l : List Char) : Option ℚ :=
  match (l.map (fun c => if c = 'E' then 'e' else c)) with
  | '+' :: rest => parseUnsigned rest
  | '-' :: rest => (parseUnsigned rest).map (fun q => -q)
  | rest => parseUnsigned rest

/-- The comma/dot disambiguation branch of `_parse_float`:
a lone comma with no dot becomes the decimal point; otherwise all commas
are deleted. -/
def commaPhase (l : List Char) : List Char :=
  if l.count ',' = 1 && l.count '.' = 0 then
    l.map (fun c => if c = ',' then '.' else c)
  else if l.count ',' > 1 && l.count '.' = 0 then
    removeChar ',' l
  else
    removeChar ',' l

/-- The parenthesised-negative branch: `(x)` becomes `-x`. -/
def parenPhase (l : List Char) : List Char :=
  if l.head? = some '(' && l.getLast? = some ')' then
    '-' :: (l.drop 1).dropLast
  else l

/-- `BDIFParser._parse_float`: strip, delete no-break spaces, spaces, `€`
and `%`, disambiguate comma/dot, turn `(x)` into `-x`, then `float(...)`
(`None`/empty input and unparsable remainders give `None`). -/
def parse_float (s : String) : Option ℚ :=
  if s = "" then none
  else
    let v0 := pyStrip s.data
    let v1 := removeChar '%' (removeChar '€' (removeChar ' ' (removeChar '\u00A0' v0)))
    let v2 := parenPhase (commaPhase v1)
    pyFloat v2

end BDIFParser

/-! ## `nport_qa.NPORTQualityAssurance`

The QA gate (`src/pipeline/nport_qa.py`).  A holdings frame is a list of
row records plus per-column presence flags (pandas columns may be absent
altogether).  Check messages are abstracted to identifiers; the JSON
report writing is I/O and outside the embedding. -/

namespace NPORTQA

/-- Cells of one holdings row that the QA checks read. -/
structure QARow where
  weight_pct : Option ℚ
  isin : Option String
  cusip : Option String

/-- A holdings frame as seen by `validate_holdings`: rows plus column
presence flags (`required_cols` membership is a column-level fact). -/
structure QAFrame where
  hasWeightPct : Bool
  hasIsin : Bool
  hasCusip : Bool
  hasInstrumentNameRaw : Bool
  hasMarketValueLocal : Bool
  hasAsOf : Bool
  hasFundId : Bool
  rows : List QARow

/-- Identifiers for the individual QA checks (abstracting the formatted
message strings appended to `checks_passed` / `checks_failed`). -/
inductive Check where
  | emptyData
  | weightSum
  | missingWeightPct
  | idCoverage
  | top10
  | completeness
  | missingColumns
  deriving DecidableEq

/-- `QAResult` (status plus the check lists; the report fields that are
only echoed into the JSON report carry the computed statistics). -/
structure QAResult where
  fund_id : String
  as_of : String
  n_positions : ℕ
  weight_sum : ℚ
  unresolved_ids : ℕ
  unresolved_pct : ℚ
  top10_concentration : ℚ
  checks_passed : List Check
  checks_failed : List Check
  status : String

def WEIGHT_SUM_MIN : ℚ := 99.5

def WEIGHT_SUM_MAX : ℚ := 100.5

def MIN_IDENTIFIER_COVERAGE : ℚ := 98

/-- `NPORTQualityAssurance.validate_holdings`: the four independent
checks; any failed check makes the overall status `fail`. -/
def validate_holdings (df : QAFrame) (fund_id as_of : String) : QAResult :=
  if df.rows.isEmpty then
    { fund_id := fund_id, as_of := as_of, n_positions := 0, weight_sum := 0
      unresolved_ids := 0, unresolved_pct := 0, top10_concentration := 0
      checks_passed := [], checks_failed := [.emptyData], status := "fail" }
  else
    -- Check 1: weight sum
    let weight_sum : ℚ :=
      if df.hasWeightPct then sumOpt (df.rows.map (·.weight_pct)) else 0
    let wPassed : List Check :=
      if df.hasWeightPct ∧ WEIGHT_SUM_MIN ≤ weight_sum ∧ weight_sum ≤ WEIGHT_SUM_MAX
      then [.weightSum] else []
    let wFailed : List Check :=
      if df.hasWeightPct then
        (if WEIGHT_SUM_MIN ≤ weight_sum ∧ weight_sum ≤ WEIGHT_SUM_MAX
         then [] else [.weightSum])
      else [.missingWeightPct]
    -- Check 2: identifier coverage
    let unresolved : ℕ :=
      if df.hasIsin ∧ df.hasCusip then
        (df.rows.filter (fun r => r.isin.isNone ∧ r.cusip.isNone)).length
      else if df.hasIsin then (df.rows.filter (·.isin.isNone)).length
      else if df.hasCusip then (df.rows.filter (·.cusip.isNone)).length
      else 0
    let unresolved_pct : ℚ := ((unresolved : ℚ) / (df.rows.length : ℚ)) * 100
    let coverage_pct : ℚ := 100 - unresolved_pct
    let cPassed : List Check :=
      if MIN_IDENTIFIER_COVERAGE ≤ coverage_pct then [.idCoverage] else []
    let cFailed : List Check :=
      if MIN_IDENTIFIER_COVERAGE ≤ coverage_pct then [] else [.idCoverage]
    -- Check 3: top-10 concentration (informational, always passes)
    let top10 : ℚ :=
      if df.hasWeightPct then
        sumOpt ((sortDescBy owKey (df.rows.map (·.weight_pct))).take 10)
      else 0
    let tPassed : List Check := if df.hasWeightPct then [.top10] else []
    -- Check 4: required-column completeness
    let complete : Bool :=
      df.hasInstrumentNameRaw && df.hasMarketValueLocal && df.hasAsOf && df.hasFundId
    let dPassed : List Check := if complete then [.completeness] else []
    let dFailed : List Check := if complete then [] else [.missingColumns]
    let checks_failed := wFailed ++ cFailed ++ dFailed
    { fund_id := fund_id, as_of := as_of, n_positions := df.rows.length
      weight_sum := weight_sum, unresolved_ids := unresolved
      unresolved_pct := unresolved_pct, top10_concentration := top10
      checks_passed := wPassed ++ cPassed ++ tPassed ++ dPassed
      checks_failed := checks_failed
      status := if checks_failed.isEmpty then "pass" else "fail" }

end NPORTQA

/-! ## `nport_enrichment.NPORTEnrichment`

Silver-to-gold enrichment (`src/pipeline/nport_enrichment.py`).  Rows
carry every cell the module reads or writes; frame-level flags record
which columns exist.  `print` warnings become warning values. -/

namespace NPORTEnrichment

/-- One holdings row: raw parser cells plus the cells enrichment writes
(the written cells are meaningful only when the frame flag is set). -/
structure ERow where
  isin : Option String
  cusip : Option String
  market_value_local : Option ℚ
  country_raw : Option String
  category_raw : Option String
  instrument_name_raw : Option String
  instrument_isin : Option String
  weight_pct : Option ℚ
  market_value_eur : Option ℚ
  country : Option String
  asset_class : Option String
  sector : Option String
  instrument_name : Option String
  enrichment_version : Option ℕ

/-- A holdings frame: per-column presence flags plus rows. -/
structure EFrame where
  hasIsin : Bool
  hasCusip : Bool
  hasMvLocal : Bool
  hasCountryRaw : Bool
  hasCategoryRaw : Bool
  hasInstrNameRaw : Bool
  hasInstrumentIsin : Bool
  hasWeightPct : Bool
  hasMvEur : Bool
  hasCountry : Bool
  hasAssetClass : Bool
  hasSector : Bool
  hasInstrName : Bool
  hasEnrichmentVersion : Bool
  rows : List ERow

/-- Warnings printed by enrichment. -/
inductive EWarning where
  | noMvColumn
  | zeroOrNegativeTotal
  deriving DecidableEq

/-- Python `str.upper()` (ASCII). -/
def pyUpper (s : String) : String := ⟨s.data.map Char.toUpper⟩

/-- Character stream of Python `str.title()`: an alphabetic character is
upper-cased after a non-alphabetic one and lower-cased otherwise. -/
def titleGo : Bool → List Char → List Char
  | _, [] => []
  | prevAlpha, c :: rest =>
    (if c.isAlpha then (if prevAlpha then c.toLower else c.toUpper) else c)
      :: titleGo c.isAlpha rest

/-- Python `str.title()` (ASCII). -/
def pyTitle (s : String) : String := ⟨titleGo false s.data⟩

/-- Python `str.strip()` on a string. -/
def pyStripStr (s : String) : String := ⟨BDIFParser.pyStrip s.data⟩

/-- pandas `Series.replace(mapping)`: a cell equal to a key is replaced
by the mapped value, all other cells stay. -/
def applyMap (m : List (String × String)) (s : String) : String :=
  (m.lookup s).getD s

/-- The `country_map` literal of `_normalize_classifications`. -/
def country_map : List (String × String) :=
  [("US", "US"), ("USA", "US"), ("UNITED STATES", "US"),
   ("GB", "GB"), ("UK", "GB"), ("UNITED KINGDOM", "GB"),
   ("UNKNOWN", "Unknown"), ("", "Unknown")]

/-- The `asset_class_map` literal of `_normalize_classifications`. -/
def asset_class_map : List (String × String) :=
  [("Equity", "Equity"), ("Equity-common", "Equity"),
   ("Equity-preferred", "Equity"),
   ("Debt", "Fixed Income"), ("Debt-corporate", "Fixed Income"),
   ("Debt-government", "Fixed Income"), ("Debt-sovereign", "Fixed Income"),
   ("Convertible", "Fixed Income"),
   ("Derivative-equity", "Derivatives"), ("Derivative-commodity", "Derivatives"),
   ("Derivative-credit", "Derivatives"),
   ("Derivative-foreign Exchange", "Derivatives"),
   ("Derivative-interest Rate", "Derivatives"),
   ("Repurchase Agreement", "Cash"), ("Cash", "Cash"),
   ("Unknown", "Other"), ("", "Other")]

/-- The fill applied to rows with missing ISIN and present CUSIP:
`df.loc[missing_isin, 'isin'] = df.loc[missing_isin, 'cusip'].map(cusip_map)`
(an unmapped CUSIP maps to `NaN`, leaving the ISIN missing). -/
def fillIsinRow (m : List (String × String)) (r : ERow) : ERow :=
  if r.isin.isNone && r.cusip.isSome then
    { r with isin := r.cusip.bind (fun c => m.lookup c) }
  else r

/-- `df['instrument_isin'] = df['isin']`. -/
def isinToInstrumentRow (r : ERow) : ERow := { r with instrument_isin := r.isin }

/-- `df['instrument_isin'] = df['cusip']`. -/
def cusipToInstrumentRow (r : ERow) : ERow := { r with instrument_isin := r.cusip }

/-- First block of `_resolve_isin`: when both identifier columns are
present, a mapping is loaded and some row misses its ISIN, fill from the
CUSIP mapping. -/
def resolveFill (cmap : Option (List (String × String))) (df : EFrame) : EFrame :=
  if df.hasIsin && df.hasCusip then
    match cmap, df.rows.any (fun r => r.isin.isNone && r.cusip.isSome) with
    | some m, true => { df with rows := df.rows.map (fillIsinRow m) }
    | _, _ => df
  else df

/-- Second block: `if 'isin' in df.columns: df['instrument_isin'] = df['isin']`. -/
def resolveUnifyIsin (df : EFrame) : EFrame :=
  if df.hasIsin then
    { df with hasInstrumentIsin := true, rows := df.rows.map isinToInstrumentRow }
  else df

/-- Third block: fall back to the CUSIP when no `instrument_isin` column
was created and a `cusip` column exists. -/
def resolveUnifyCusip (df : EFrame) : EFrame :=
  if !df.hasInstrumentIsin && df.hasCusip then
    { df with hasInstrumentIsin := true, rows := df.rows.map cusipToInstrumentRow }
  else df

/-- `NPORTEnrichment._resolve_isin`: fill missing ISINs from the CUSIP
reference mapping (when loaded), then create the unified
`instrument_isin` column.  `cmap` models the optional
`cusip_to_isin.csv` mapping. -/
def resolve_isin (cmap : Option (List (String × String))) (df : EFrame) : EFrame :=
  resolveUnifyCusip (resolveUnifyIsin (resolveFill cmap df))

/-- `positive_values[positive_values < 0] = 0`: clamp negatives to zero
(`NaN` compares false, so `none` cells stay `none`). -/
def posPart (v : ℚ) : ℚ := if v < 0 then 0 else v

/-- `total_value`: the sum of positive market values (negatives clamped
to zero, `NaN` cells skipped by the pandas sum). -/
def total_value (df : EFrame) : ℚ :=
  sumOpt (df.rows.map (fun r => r.market_value_local.map posPart))

/-- Row update for a positive total:
`weight_pct = positive_value / total * 100`, plus the
`market_value_eur` copy. -/
def weightRow (total : ℚ) (r : ERow) : ERow :=
  { r with weight_pct := r.market_value_local.map (fun v => posPart v / total * 100)
           market_value_eur := r.market_value_local }

/-- Row update for a zero-or-negative total: scalar zero weight. -/
def zeroWeightRow (r : ERow) : ERow :=
  { r with weight_pct := some 0
           market_value_eur := r.market_value_local }

/-- `NPORTEnrichment._compute_weights`: `weight_pct` is the positive
market value over the sum of positive market values times 100; a zero or
negative total assigns scalar zero weight with a warning; a missing
`market_value_local` column leaves the frame unchanged with a warning. -/
def compute_weights (df : EFrame) : EFrame × List EWarning :=
  if !df.hasMvLocal then (df, [.noMvColumn])
  else
    if 0 < total_value df then
      ({ df with hasWeightPct := true, hasMvEur := true
                 rows := df.rows.map (weightRow (total_value df)) }, [])
    else
      ({ df with hasWeightPct := true, hasMvEur := true
                 rows := df.rows.map zeroWeightRow }, [.zeroOrNegativeTotal])

/-- `df['country'] = df['country_raw'].fillna('UNKNOWN').str.upper()`
followed by `replace(country_map)`. -/
def countryRow (r : ERow) : ERow :=
  { r with country := some (applyMap country_map
      (pyUpper (r.country_raw.getD "UNKNOWN"))) }

/-- `df['asset_class'] = df['category_raw'].fillna('Unknown').str.title()`
followed by `replace(asset_class_map)`. -/
def assetClassRow (r : ERow) : ERow :=
  { r with asset_class := some (applyMap asset_class_map
      (pyTitle (r.category_raw.getD "Unknown"))) }

/-- `df['sector'] = 'Unknown'`. -/
def sectorRow (r : ERow) : ERow := { r with sector := some "Unknown" }

/-- `df['instrument_name'] = df['instrument_name_raw'].str.strip()`. -/
def instrNameRow (r : ERow) : ERow :=
  { r with instrument_name := r.instrument_name_raw.map pyStripStr }

/-- `df['enrichment_version'] = 1`. -/
def stampRow (r : ERow) : ERow := { r with enrichment_version := some 1 }

/-- Step 4 of `enrich_holdings`: stamp the enrichment version. -/
def stampFrame (df : EFrame) : EFrame :=
  { df with hasEnrichmentVersion := true, rows := df.rows.map stampRow }

/-- Country normalisation block of `_normalize_classifications`. -/
def normCountry (df : EFrame) : EFrame :=
  if df.hasCountryRaw then
    { df with hasCountry := true, rows := df.rows.map countryRow }
  else df

/-- Asset-class normalisation block. -/
def normAssetClass (df : EFrame) : EFrame :=
  if df.hasCategoryRaw then
    { df with hasAssetClass := true, rows := df.rows.map assetClassRow }
  else df

/-- Default-sector block (`if 'sector' not in df.columns`). -/
def normSector (df : EFrame) : EFrame :=
  if !df.hasSector then
    { df with hasSector := true, rows := df.rows.map sectorRow }
  else df

/-- Instrument-name strip block. -/
def normInstrName (df : EFrame) : EFrame :=
  if df.hasInstrNameRaw then
    { df with hasInstrName := true, rows := df.rows.map instrNameRow }
  else df

/-- `NPORTEnrichment._normalize_classifications`: country and asset
class normalised from the raw columns, default sector, stripped
instrument name. -/
def normalize_classifications (df : EFrame) : EFrame :=
  normInstrName (normSector (normAssetClass (normCountry df)))

/-- `NPORTEnrichment.enrich_holdings`: empty frames are returned as-is,
otherwise resolve ISINs, compute weights, normalise classifications and
stamp `enrichment_version = 1`. -/
def enrich_holdings (cmap : Option (List (String × String))) (df : EFrame) :
    EFrame × List EWarning :=
  if df.rows.isEmpty then (df, [])
  else
    let d1 := resolve_isin cmap df
    let cw := compute_weights d1
    (stampFrame (normalize_classifications cw.1), cw.2)

/-- The `country` column of a frame (`none` when the column is absent). -/
def countryCol (df : EFrame) : Option (List (Option String)) :=
  if df.hasCountry then some (df.rows.map (·.country)) else none

/-- The `asset_class` column of a frame. -/
def assetClassCol (df : EFrame) : Option (List (Option String)) :=
  if df.hasAssetClass then some (df.rows.map (·.asset_class)) else none

/-- The `weight_pct` column of a frame. -/
def weightPctCol (df : EFrame) : Option (List (Option ℚ)) :=
  if df.hasWeightPct then some (df.rows.map (·.weight_pct)) else none

end NPORTEnrichment

/-! ## `primary_holdings.PrimaryHoldingsClient`

The resolution façade (`src/pipeline/primary_holdings.py`): snapshot
discovery over the `data/funds/<fund>/<date>/holdings.csv` layout and the
weight normalisation / truncation of `_prepare_holdings`.  Identity
columns (`Symbol`, `Name`, …) and the `Country`/`Sector`/`Asset_Class`
`fillna` do not affect the properties verified here and are omitted from
the row records. -/

namespace PrimaryHoldings

/-- One snapshot row: the cells `_prepare_holdings` reads to determine
weights (numeric columns after `pd.to_numeric(..., errors="coerce")`;
`none` is `NaN`). -/
structure PHRow where
  weight_pct_recalc : Option ℚ
  weight_pct_issuer : Option ℚ
  weight_pct_raw : Option ℚ
  weightCell : Option ℚ
  market_value_eur : Option ℚ
  market_value_local : Option ℚ

/-- A loaded snapshot frame: per-column presence flags plus rows. -/
structure PHFrame where
  hasWRecalc : Bool
  hasWIssuer : Bool
  hasWRaw : Bool
  hasWeight : Bool
  hasMvEur : Bool
  hasMvLocal : Bool
  rows : List PHRow

/-- An output row: the original cells plus the computed `Weight`. -/
structure PrepRow where
  row : PHRow
  weight : Option ℚ

/-- The `weight_cols` priority loop: the first *present* column with at
least one non-null value.  (In the source, a present but all-null column
can be left in `weight_series`, but the following
`weight_series.isna().all()` test then routes to the market-value
fallback, which is exactly the `none` case here.) -/
def weightSource : List (Bool × List (Option ℚ)) → Option (List (Option ℚ))
  | [] => none
  | (has, col) :: rest =>
      if has && col.any (·.isSome) then some col else weightSource rest

/-- The candidate weight columns in the priority order of `weight_cols`:
`weight_pct_recalc`, `weight_pct_issuer`, `weight_pct_raw`, `Weight`. -/
def weightCandidates (df : PHFrame) : List (Bool × List (Option ℚ)) :=
  [(df.hasWRecalc, df.rows.map (·.weight_pct_recalc)),
   (df.hasWIssuer, df.rows.map (·.weight_pct_issuer)),
   (df.hasWRaw, df.rows.map (·.weight_pct_raw)),
   (df.hasWeight, df.rows.map (·.weightCell))]

/-- The failure modes of `_prepare_holdings`.  `attrErrorNoMvColumn`
records that when neither market-value column exists the source code
calls `.isna()` on a scalar `NaN` and dies with an `AttributeError`
rather than the intended `PrimaryHoldingsError`; both are abnormal
exits. -/
inductive PrepError where
  | emptySnapshot
  | missingWeightAndMv
  | attrErrorNoMvColumn
  | zeroTotalWeight
  deriving DecidableEq

/-- The weight-series determination of `_prepare_holdings`: the first
populated weight column, else market-value proportions (the `eur`
column shadows the `local` one even when empty), else the failure modes
described on `PrepError`. -/
def selectSeries (df : PHFrame) : Except PrepError (List (Option ℚ)) :=
  match weightSource (weightCandidates df) with
  | some col => .ok col
  | none =>
      if df.hasMvEur then
        (if (df.rows.map (·.market_value_eur)).all (·.isNone) then
          .error .missingWeightAndMv
         else
          .ok ((df.rows.map (·.market_value_eur)).map
            (Option.map (· / sumOpt (df.rows.map (·.market_value_eur))))))
      else if df.hasMvLocal then
        (if (df.rows.map (·.market_value_local)).all (·.isNone) then
          .error .missingWeightAndMv
         else
          .ok ((df.rows.map (·.market_value_local)).map
            (Option.map (· / sumOpt (df.rows.map (·.market_value_local))))))
      else .error .attrErrorNoMvColumn

/-- `working["Weight"] = (weight_series / total_weight).astype(float)`:
each row paired with its normalised weight cell. -/
def normalizedRows (df : PHFrame) (ws : List (Option ℚ)) : List PrepRow :=
  (df.rows.zip ws).map (fun p => PrepRow.mk p.1 (p.2.map (· / sumOpt ws)))

/-- The rows after `working.sort_values("Weight", ascending=False)`. -/
def sortedRows (df : PHFrame) (ws : List (Option ℚ)) : List PrepRow :=
  sortDescBy (fun pr => owKey pr.weight) (normalizedRows df ws)

/-- The tail of `_prepare_holdings` once a weight series is fixed:
normalise to total 1, sort descending (`NaN` last), truncate to
`max_positions` and renormalise the surviving rows. -/
def finishHoldings (df : PHFrame) (max_positions : Option ℕ)
    (ws : List (Option ℚ)) : Except PrepError (List PrepRow) :=
  if sumOpt ws = 0 then .error .zeroTotalWeight
  else
    match max_positions with
    | none => .ok (sortedRows df ws)
    | some n =>
        .ok (((sortedRows df ws).take n).map
          (fun pr => PrepRow.mk pr.row (pr.weight.map
            (· / sumOpt (((sortedRows df ws).take n).map (·.weight))))))

/-- `PrimaryHoldingsClient._prepare_holdings`: choose a weight series
(falling back to market-value proportions), normalise it to sum 1, sort
descending (`NaN` last), optionally truncate to `max_positions` and
renormalise.  (In the zero-total market-value fallback the source
divides by zero producing `inf`/`NaN` and then raises `zeroTotalWeight`
on the `NaN` total; the rational embedding reaches the same raise via
`0 / 0 = 0`.) -/
def prepare_holdings (df : PHFrame) (max_positions : Option ℕ) :
    Except PrepError (List PrepRow) :=
  if df.rows.isEmpty then .error .emptySnapshot
  else (selectSeries df).bind (finishHoldings df max_positions)

/-- A gold snapshot on disk (`SnapshotHandle` dataclass); `as_of` is a
date ordinal. -/
structure SnapshotHandle where
  as_of : ℤ
  version : ℕ
  deriving DecidableEq

/-- One entry of the fund-root directory listing, as `_discover_snapshot`
sees it: the result of `strptime(dir.name, "%Y-%m-%d")` (already parsed;
unparseable names are `none`) and whether `holdings.csv` exists inside. -/
structure DirScan where
  date? : Option ℤ
  hasHoldingsCsv : Bool

/-- Candidate snapshots of `_discover_snapshot`: date-named directories,
filtered by the explicit `as_of` override if given, containing a
`holdings.csv`; the simplified store has no version directories, so every
candidate gets `version = 1`. -/
def discover_candidates (dirs : List DirScan) (target : Option ℤ) :
    List SnapshotHandle :=
  dirs.filterMap (fun d =>
    match d.date? with
    | none => none
    | some dt =>
        if (match target with | some t => decide (dt ≠ t) | none => false) then none
        else if d.hasHoldingsCsv then some ⟨dt, 1⟩ else none)

/-- `PrimaryHoldingsClient._discover_snapshot` (selection step): sort the
candidates by `(as_of, version)` and take the last.  The auto-snapshot
fallback taken when there are no candidates is network I/O outside this
function's scope and is modelled as `none`. -/
def discover_snapshot (dirs : List DirScan) (target : Option ℤ) :
    Option SnapshotHandle :=
  let candidates := discover_candidates dirs target
  if candidates.isEmpty then none
  else
    (sortAscBy (fun s : SnapshotHandle => toLex (s.as_of, s.version)) candidates).getLast?

end PrimaryHoldings

/-! ## `ingest_nport.NPORTIngestionPipeline`

The N-PORT orchestrator (`src/pipeline/ingest_nport.py`): gold
persistence (`_save_gold`, `_next_version`), the freshness gate and the
candidate-backtracking loop of `ingest_fund`.  The filesystem is a store
of path/content pairs; network and parsing results come from an explicit
environment so the control flow can be examined for every outcome. -/

namespace IngestNPORT

/-- A storage path, one component per directory level. -/
abbrev FsPath := List String

/-- The gold store: an association of paths to file contents (the CSV
serialisation of the frame is abstracted to its content value). -/
abbrev GoldStore := List (FsPath × String)

def storeGet (st : GoldStore) (p : FsPath) : Option String :=
  alistGet st p

/-- Writing a file: replace the content at an existing path, otherwise
create it. -/
def storeSet (st : GoldStore) (p : FsPath) (c : String) : GoldStore :=
  alistSet st p c

/-- The output path of `_save_gold`:
`funds/<fund_name>/<as_of_date>/holdings.csv` — no version component. -/
def goldPath (fund_name as_of_date : String) : FsPath :=
  [fund_name, as_of_date, "holdings.csv"]

/-- `NPORTIngestionPipeline._save_gold`: write `holdings.csv` under the
fund/date directory (`to_csv` overwrites an existing file). -/
def save_gold (st : GoldStore) (fund_name as_of_date content : String) :
    GoldStore × FsPath :=
  (storeSet st (goldPath fund_name as_of_date) content,
   goldPath fund_name as_of_date)

/-- `NPORTIngestionPipeline._next_version`: max existing `version=N`
directory plus one.  (Defined in the source but never called by the save
path.) -/
def next_version (dirNames : List String) : ℕ :=
  let versions := dirNames.filterMap (fun name =>
    match name.splitOn "=" with
    | _ :: v :: _ => v.toNat?
    | _ => none)
  versions.foldl max 0 + 1

/-- A fund registry entry (the fields `ingest_fund` reads). -/
structure FundConfig where
  cik : Option String
  series_id : Option String
  class_id : Option String
  freshness_days : Option ℤ
  tickers : List String
  deriving DecidableEq

/-- `fund_id.replace("=", "_").replace("/", "_")`. -/
def clean_fund_id (s : String) : String :=
  s.map (fun c => if c = '=' || c = '/' then '_' else c)

/-- `NPORTIngestionPipeline._get_fund_name`: first ticker, else the
cleaned fund id. -/
def get_fund_name (cfg : FundConfig) (fund_id : String) : String :=
  match cfg.tickers with
  | t :: _ => t
  | [] => clean_fund_id fund_id

/-- A discovered filing (`FilingMetadata`): timestamps and dates as
integers (epoch seconds / day ordinals). -/
structure Filing where
  accession : String
  filing_ts : ℤ
  as_of_days : ℤ
  url : String

/-- What parsing one filing yields (`parse_filing` metadata plus the
holdings count). -/
structure ParsedDoc where
  series_id : Option String
  class_ids : List String
  holdings_count : ℕ
  as_of : String

/-- The orchestrator's world: registry, persisted snapshots (per fund
directory, the parsed dates of its date-named subdirectories), the
current date, and the network/parse oracles. -/
structure IngestEnv where
  registry : List (String × FundConfig)
  fundDirs : String → Option (List (Option ℤ))
  today : ℤ
  discover : String → ℤ → ℤ → Option String → Option String → List Filing
  downloadOk : Filing → Bool
  parsed : Filing → ParsedDoc
  qaPass : Filing → ParsedDoc → Bool

/-- Suspending operations performed during a run. -/
inductive NetAction where
  | discoverCall
  | downloadCall
  | parseCall
  deriving DecidableEq

/-- Uncaught Python exceptions of the run. -/
inductive PyError where
  | typeErrorUnexpectedKwarg
  deriving DecidableEq

/-- The parameters `NPORTDownloader.download_filing` accepts
(`src/pipeline/nport_download.py`, line 34). -/
def download_filing_params : List String :=
  ["url", "cik", "accession", "as_of_date"]

/-- The keyword arguments `ingest_fund` passes at the download call
(`src/pipeline/ingest_nport.py`, lines 178-184). -/
def ingest_call_kwargs : List String :=
  ["url", "cik", "accession", "as_of_date", "fund_name"]

/-- Python keyword binding: every keyword must name a parameter,
otherwise the call raises `TypeError` before the callee runs. -/
def kwargsBindOk : Bool :=
  ingest_call_kwargs.all (fun k => download_filing_params.contains k)

/-- `NPORTIngestionPipeline._get_latest_as_of`: max parsed date-directory
name under the fund directory, `none` if the directory is missing or has
no parseable date. -/
def get_latest_as_of (env : IngestEnv) (fund_name : String) : Option ℤ :=
  match env.fundDirs fund_name with
  | none => none
  | some dirs => (dirs.filterMap id).max?

/-- The `_filing_sort_key` ordering: distance to the target date then
newest filing first when a target is given, else newest filing first. -/
def sortFilings (target : Option ℤ) (filings : List Filing) : List Filing :=
  match target with
  | some t =>
      sortAscBy (fun f : Filing => toLex (|f.as_of_days - t|, -f.filing_ts)) filings
  | none => sortAscBy (fun f : Filing => -f.filing_ts) filings

/-- The candidate loop of `ingest_fund`: download, parse, filter on
series/class, require non-empty holdings; on any failure move to the next
candidate.  The download call itself binds the keyword arguments first —
with the current signatures this raises `TypeError`, which the loop does
not catch. -/
def selectFiling (env : IngestEnv) (expSeries expClass : Option String) :
    List Filing → Except PyError (Option (Filing × ParsedDoc) × List NetAction)
  | [] => .ok (none, [])
  | f :: rest =>
      if !kwargsBindOk then .error .typeErrorUnexpectedKwarg
      else
        if !env.downloadOk f then
          (selectFiling env expSeries expClass rest).map
            (fun r => (r.1, .downloadCall :: r.2))
        else
          let doc := env.parsed f
          let seriesReject :=
            match expSeries, doc.series_id with
            | some e, some s => s ≠ e
            | _, _ => false
          let classReject :=
            match expClass with
            | some e => !doc.class_ids.isEmpty && !doc.class_ids.contains e
            | none => false
          if seriesReject || classReject || doc.holdings_count = 0 then
            (selectFiling env expSeries expClass rest).map
              (fun r => (r.1, .downloadCall :: .parseCall :: r.2))
          else
            .ok (some (f, doc), [.downloadCall, .parseCall])

/-- `NPORTIngestionPipeline.ingest_fund`: registry and CIK checks, the
freshness gate, discovery, the candidate loop and the final QA-driven
boolean.  Returns the outcome together with the trace of suspending
operations (empty trace = zero network calls). -/
def ingest_fund (env : IngestEnv) (fund_id : String) (target : Option ℤ)
    (force : Bool) : Except PyError (Bool × List NetAction) :=
  match env.registry.lookup fund_id with
  | none => .ok (false, [])
  | some cfg =>
    match cfg.cik with
    | none => .ok (false, [])
    | some cik =>
      if !force && target.isNone &&
          (match get_latest_as_of env (get_fund_name cfg fund_id) with
           | some latest => decide (env.today - latest < cfg.freshness_days.getD 30)
           | none => false) then
        .ok (true, [])
      else
        let window : ℤ × ℤ :=
          match target with
          | some t => (t - 365, t + 365)
          | none => (env.today - 120, env.today)
        let filings := env.discover cik window.1 window.2 cfg.series_id cfg.class_id
        if filings.isEmpty then .ok (false, [.discoverCall])
        else
          match selectFiling env cfg.series_id cfg.class_id
              (sortFilings target filings) with
          | .error e => .error e
          | .ok (none, acts) => .ok (false, .discoverCall :: acts)
          | .ok (some (f, doc), acts) =>
              .ok (env.qaPass f doc, .discoverCall :: acts)

end IngestNPORT

/-! ## `auto_registry.AutoRegistry._add_registry_entry`

Registry-entry merge (`src/pipeline/auto_registry.py`, lines 321-358).
Entries are Python dicts: association lists of field name to value, where
the value is `Option PyVal` (`none` is Python `None`). -/

namespace AutoRegistry

/-- Registry field values. -/
inductive PyVal where
  | str (s : String)
  | int (n : ℤ)
  | list (l : List String)
  deriving DecidableEq

/-- A registry entry: a dict of field name to (possibly `None`) value. -/
abbrev Entry := List (String × Option PyVal)

/-- `d.get(k)`: `none` when the key is absent, `some v` when present. -/
def dictGet (d : Entry) (k : String) : Option (Option PyVal) :=
  alistGet d k

/-- `d[k] = v`. -/
def dictSet (d : Entry) (k : String) (v : Option PyVal) : Entry :=
  alistSet d k v

/-- Python truthiness of `d.get(k)` (absent, `None`, `""`, `0` and `[]`
are falsy). -/
def pyTruthy : Option (Option PyVal) → Bool
  | none => false
  | some none => false
  | some (some (.str s)) => s ≠ ""
  | some (some (.int n)) => n ≠ 0
  | some (some (.list l)) => !l.isEmpty

/-- `entry.get('domicile') in ('LU', 'DE')`. -/
def isEuropeanDomicile (d : Entry) : Bool :=
  dictGet d "domicile" = some (some (.str "LU"))
    || dictGet d "domicile" = some (some (.str "DE"))

/-- One step of the merge loop
(`for key, value in entry.items(): if value is not None: existing[key] = value`). -/
def mergeStep (acc : Entry) (kv : String × Option PyVal) : Entry :=
  match kv.2 with
  | some v => dictSet acc kv.1 (some v)
  | none => acc

/-- The European-fund back-fill: set `auto_source` to `"yfinance"` when
the domicile is LU/DE and `auto_source` is falsy. -/
def autoSourceFill (d : Entry) : Entry :=
  if isEuropeanDomicile d && !pyTruthy (dictGet d "auto_source") then
    dictSet d "auto_source" (some (.str "yfinance"))
  else d

/-- The merge branch of `_add_registry_entry` for an existing dict entry:
every non-`None` field of the discovered entry is written over the
existing entry; then `auto_source` is back-filled with `"yfinance"` for
LU/DE entries whose `auto_source` is falsy (the source performs this
back-fill twice on the same dict; the second pass is a no-op). -/
def merge_entry (existing entry : Entry) : Entry :=
  autoSourceFill (autoSourceFill (entry.foldl mergeStep existing))

end AutoRegistry

/-! ## `bdif_discovery.BDIFDiscovery`

Report discovery against the French open-data search API
(`src/pipeline/bdif_discovery.py`).  HTTP is an oracle mapping (query
index, attempt number) to either a parsed JSON payload or a request
error; `_parse_date` results are pre-parsed into the record model (its
three accepted input shapes all collapse to `Option` of a date). -/

namespace BDIFDiscovery

/-- One Opendatasoft record, reduced to the fields `discover_reports`
reads.  String fields read with `fields.get(x, "")` are plain strings;
`url_de_recuperation` is read without a default and is optional. -/
structure BRecord where
  recordid : String
  isinField : String
  urlField : Option String
  datAmf : Option ℤ
  datMar : Option ℤ
  datEmt : Option ℤ
  codDif : String
  sousType : String
  typeInf : String
  titInf : Option String
  codeIsinNom : String

/-- A search payload: total hit count and the page of records. -/
structure Payload where
  nhits : ℕ
  records : List BRecord

/-- `BDIFReportMetadata`. -/
structure BDIFReportMetadata where
  pdf_url : String
  as_of : ℤ
  record_id : String
  nature_document : String
  title : Option String
  deriving DecidableEq

def MAX_RETRIES : ℕ := 3

def BACKOFF_SECONDS : ℚ := 2

/-- Python `a or b` on strings (`""` falsy). -/
def strOr (a b : String) : String := if a ≠ "" then a else b

/-- The ordered fallback query strategies of `discover_reports`: direct
ISIN, field-qualified ISIN, wildcard field search, first nine
characters. -/
def search_queries (isin : String) : List String :=
  [isin,
   "identificationsociete_iso_cd_isi:" ++ isin,
   "code_isin_nom_sc:\"*" ++ isin ++ "*\"",
   (isin.toList.take 9).asString]

/-- The retry loop body of `_get_json` from a given attempt number:
result, number of requests actually made, and the backoff sleeps
(`BACKOFF_SECONDS * attempt`) taken between them. -/
def getJsonAux (oracle : ℕ → Except Unit Payload) :
    ℕ → ℕ → Option Payload × ℕ × List ℚ
  | _, 0 => (none, 0, [])
  | attempt, fuel + 1 =>
      match oracle attempt with
      | .ok p => (some p, 1, [])
      | .error _ =>
          if MAX_RETRIES ≤ attempt then (none, 1, [])
          else
            let r := getJsonAux oracle (attempt + 1) fuel
            (r.1, r.2.1 + 1, BACKOFF_SECONDS * attempt :: r.2.2)

/-- `BDIFDiscovery._get_json`: `for attempt in range(1, MAX_RETRIES + 1)`
with backoff; exhausted retries return `None` (the caught
`RequestException` is logged, never re-raised). -/
def get_json (oracle : ℕ → Except Unit Payload) : Option Payload × ℕ × List ℚ :=
  getJsonAux oracle 1 MAX_RETRIES

/-- The per-record filter of `discover_reports`: re-verify the record's
own ISIN, require a PDF url, take the first parseable date field, apply
the target-date filter, and build the metadata (the
`is_periodic_report` flag is computed in the source but used only for
debug logging). -/
def processRecord (isin : String) (target : Option ℤ) (r : BRecord) :
    Option BDIFReportMetadata :=
  if r.isinField ≠ isin then none
  else if !truthy r.urlField then none
  else
    match r.datAmf <|> r.datMar <|> r.datEmt with
    | none => none
    | some d =>
        if (match target with | some t => decide (d ≠ t) | none => false) then none
        else
          some { pdf_url := r.urlField.getD "", as_of := d,
                 record_id := r.recordid,
                 nature_document := strOr r.codDif (strOr r.sousType r.typeInf),
                 title := if truthy r.titInf then r.titInf
                          else some r.codeIsinNom }

/-- The query loop: try each strategy in order, stopping at the first
that contributes records (`if records: break`); a missing payload moves
to the next strategy. -/
def discoverGo (oracle : ℕ → ℕ → Except Unit Payload) (isin : String)
    (target : Option ℤ) : List ℕ → List BDIFReportMetadata
  | [] => []
  | qi :: rest =>
      match (get_json (oracle qi)).1 with
      | none => discoverGo oracle isin target rest
      | some p =>
          let recs := p.records.filterMap (processRecord isin target)
          if recs.isEmpty then discoverGo oracle isin target rest
          else recs

/-- `BDIFDiscovery.discover_reports`: run the fallback query strategies
and sort the surviving records by `as_of` descending.  Total by
construction — every failure path degrades to an empty list. -/
def discover_reports (oracle : ℕ → ℕ → Except Unit Payload) (isin : String)
    (target : Option ℤ) : List BDIFReportMetadata :=
  sortDescBy (fun r : BDIFReportMetadata => r.as_of)
    (discoverGo oracle isin target (List.range (search_queries isin).length))

end BDIFDiscovery

/-! ## Concrete fixtures

Small concrete inputs used by witnesses and counterexamples. -/

/-- A registry/environment where discovery finds one filing whose parsed
`series_id` does not match the registry's and which yields no holdings:
the scenario of candidate exhaustion. -/
def envC5 : IngestNPORT.IngestEnv :=
  { registry := [("SPY",
      { cik := some "0000884394", series_id := some "S000006408",
        class_id := none, freshness_days := some 30, tickers := ["SPY"] })]
    fundDirs := fun _ => none
    today := 20000
    discover := fun _ _ _ _ _ =>
      [{ accession := "0001752724-24-119000", filing_ts := 1700000000,
         as_of_days := 19900, url := "edgar/data/x.xml" }]
    downloadOk := fun _ => true
    parsed := fun _ =>
      { series_id := some "S000099999", class_ids := [], holdings_count := 0,
        as_of := "2024-06-30" }
    qaPass := fun _ _ => false }

/-- An environment with a fresh persisted snapshot (10 days old against
a 30-day freshness window). -/
def envC6 : IngestNPORT.IngestEnv :=
  { registry := [("SPY",
      { cik := some "0000884394", series_id := none, class_id := none,
        freshness_days := none, tickers := ["SPY"] })]
    fundDirs := fun n => if n = "SPY" then some [some 19990, none] else none
    today := 20000
    discover := fun _ _ _ _ _ => []
    downloadOk := fun _ => false
    parsed := fun _ =>
      { series_id := none, class_ids := [], holdings_count := 0, as_of := "" }
    qaPass := fun _ _ => false }

/-- A parser-shaped holdings row with only the market value populated. -/
def mkMvRow (mv : Option ℚ) : NPORTEnrichment.ERow :=
  { isin := none, cusip := none, market_value_local := mv, country_raw := none,
    category_raw := none, instrument_name_raw := none, instrument_isin := none,
    weight_pct := none, market_value_eur := none, country := none,
    asset_class := none, sector := none, instrument_name := none,
    enrichment_version := none }

/-- A three-position frame holding a short (negative) position. -/
def dfC4 : NPORTEnrichment.EFrame :=
  { hasIsin := false, hasCusip := false, hasMvLocal := true,
    hasCountryRaw := false, hasCategoryRaw := false, hasInstrNameRaw := false,
    hasInstrumentIsin := false, hasWeightPct := false, hasMvEur := false,
    hasCountry := false, hasAssetClass := false, hasSector := false,
    hasInstrName := false, hasEnrichmentVersion := false,
    rows := [mkMvRow (some 60), mkMvRow (some 40), mkMvRow (some (-50))] }

/-- A snapshot row whose only populated cell is the `Weight` column. -/
def mkWRow (w : Option ℚ) : PrimaryHoldings.PHRow :=
  { weight_pct_recalc := none, weight_pct_issuer := none,
    weight_pct_raw := none, weightCell := w,
    market_value_eur := none, market_value_local := none }

/-- A three-position snapshot carrying only a `Weight` column with raw
weights 60, 25 and 15. -/
def dfC2 : PrimaryHoldings.PHFrame :=
  { hasWRecalc := false, hasWIssuer := false, hasWRaw := false,
    hasWeight := true, hasMvEur := false, hasMvLocal := false,
    rows := [mkWRow (some 60), mkWRow (some 25), mkWRow (some 15)] }

/-- The rows `_prepare_holdings` produces from `dfC2` with
`max_positions = 2`: the two largest positions, renormalised to
`12/17` and `5/17`. -/
def outC2 : List PrimaryHoldings.PrepRow :=
  [⟨mkWRow (some 60), some (12/17)⟩, ⟨mkWRow (some 25), some (5/17)⟩]

set_option maxRecDepth 16000

/-! ## Helper lemmas -/

theorem alistGet_alistSet_self {κ β : Type} [DecidableEq κ]
    (d : List (κ × β)) (k : κ) (v : β) :
    alistGet (alistSet d k v) k = some v := by
  induction d with
  | nil => simp [alistSet, alistGet]
  | cons e rest ih =>
      by_cases h : e.1 = k
      · simp only [alistSet, if_pos h]
        simp [alistGet]
      · simp only [alistSet, if_neg h]
        simpa [alistGet, h] using ih

theorem alistGet_alistSet_ne {κ β : Type} [DecidableEq κ]
    (d : List (κ × β)) (k k' : κ) (v : β) (hne : k' ≠ k) :
    alistGet (alistSet d k v) k' = alistGet d k' := by
  have hkk : ¬ (k = k') := fun hc => hne hc.symm
  induction d with
  | nil => simp [alistSet, alistGet, hkk]
  | cons e rest ih =>
      by_cases h : e.1 = k
      · have hek' : ¬ (e.1 = k') := fun hc => hne (h ▸ hc ▸ rfl)
        simp only [alistSet, if_pos h]
        simp [alistGet, hkk, hek']
      · simp only [alistSet, if_neg h]
        by_cases h2 : e.1 = k'
        · simp [alistGet, h2]
        · simpa [alistGet, h2] using ih

theorem alistGet_alistSet_isSome {κ β : Type} [DecidableEq κ]
    (d : List (κ × β)) (k k' : κ) (v : β)
    (h : (alistGet d k').isSome) :
    (alistGet (alistSet d k v) k').isSome := by
  by_cases hk : k' = k
  · subst hk; simp [alistGet_alistSet_self]
  · rwa [alistGet_alistSet_ne d k k' v hk]

theorem mergeFold_presence (entry : List (String × Option AutoRegistry.PyVal)) :
    ∀ (acc : AutoRegistry.Entry) (k : String),
      (AutoRegistry.dictGet acc k).isSome →
      (AutoRegistry.dictGet (entry.foldl AutoRegistry.mergeStep acc) k).isSome := by
  induction entry with
  | nil => intro acc k h; simpa using h
  | cons kv rest ih =>
      intro acc k h
      rw [List.foldl_cons]
      refine ih _ k ?_
      cases hv : kv.2 with
      | none => simpa [AutoRegistry.mergeStep, hv] using h
      | some v =>
          simp only [AutoRegistry.mergeStep, hv]
          exact alistGet_alistSet_isSome _ _ _ _ h

theorem mergeFold_skip (entry : List (String × Option AutoRegistry.PyVal))
    (k : String) :
    ∀ (acc : AutoRegistry.Entry), (∀ v, (k, v) ∈ entry → v = none) →
      AutoRegistry.dictGet (entry.foldl AutoRegistry.mergeStep acc) k
        = AutoRegistry.dictGet acc k := by
  induction entry with
  | nil => intro acc _; rfl
  | cons kv rest ih =>
      intro acc hk
      rw [List.foldl_cons,
        ih _ (fun v hv => hk v (List.mem_cons_of_mem _ hv))]
      cases hv : kv.2 with
      | none => simp [AutoRegistry.mergeStep, hv]
      | some v =>
          by_cases hkk : kv.1 = k
          · have hkv : kv = (k, some v) := by
              cases kv; simp_all
            exact absurd (hk (some v) (hkv ▸ List.mem_cons_self _ _)) (by simp)
          · simp only [AutoRegistry.mergeStep, hv]
            exact alistGet_alistSet_ne _ _ _ _ (fun hc => hkk hc.symm)

theorem autoSourceFill_presence (d : AutoRegistry.Entry) (k : String)
    (h : (AutoRegistry.dictGet d k).isSome) :
    (AutoRegistry.dictGet (AutoRegistry.autoSourceFill d) k).isSome := by
  unfold AutoRegistry.autoSourceFill
  split
  · exact alistGet_alistSet_isSome _ _ _ _ h
  · exact h

theorem autoSourceFill_skip (d : AutoRegistry.Entry) (k : String)
    (hk : k ≠ "auto_source") :
    AutoRegistry.dictGet (AutoRegistry.autoSourceFill d) k
      = AutoRegistry.dictGet d k := by
  unfold AutoRegistry.autoSourceFill
  split
  · exact alistGet_alistSet_ne _ _ _ _ hk
  · rfl

theorem sumOpt_nil : sumOpt [] = 0 := rfl

theorem sumOpt_cons_none (l : List (Option ℚ)) :
    sumOpt (none :: l) = sumOpt l := by
  unfold sumOpt
  rw [List.filterMap_cons_none rfl]

theorem sumOpt_cons_some (v : ℚ) (l : List (Option ℚ)) :
    sumOpt (some v :: l) = v + sumOpt l := by
  unfold sumOpt
  rw [List.filterMap_cons_some (by rfl)]
  rfl

theorem sumOpt_append (l1 l2 : List (Option ℚ)) :
    sumOpt (l1 ++ l2) = sumOpt l1 + sumOpt l2 := by
  unfold sumOpt
  rw [List.filterMap_append, List.sum_append]

theorem sumOpt_perm {l1 l2 : List (Option ℚ)} (h : l1.Perm l2) :
    sumOpt l1 = sumOpt l2 :=
  (h.filterMap id).sum_eq

theorem sumOpt_map_div (l : List (Option ℚ)) (c : ℚ) :
    sumOpt (l.map (Option.map (· / c))) = sumOpt l / c := by
  induction l with
  | nil => simp [sumOpt_nil]
  | cons a t ih =>
      cases a with
      | none => simpa [sumOpt_cons_none] using ih
      | some v =>
          simp only [List.map_cons, Option.map_some', sumOpt_cons_some, ih]
          rw [add_div]

theorem sumOpt_eq_zero_of_no_some (l : List (Option ℚ))
    (h : ∀ v : ℚ, some v ∉ l) : sumOpt l = 0 := by
  unfold sumOpt
  rw [List.filterMap_eq_nil_iff.mpr ?_]
  · rfl
  · intro a ha
    cases a with
    | none => rfl
    | some w => exact absurd ha (h w)

theorem sumOpt_nonpos_of_all_nonpos (l : List (Option ℚ))
    (h : ∀ v : ℚ, some v ∈ l → v ≤ 0) : sumOpt l ≤ 0 := by
  induction l with
  | nil => simp [sumOpt_nil]
  | cons a t ih =>
      have ht := ih (fun v hv => h v (List.mem_cons_of_mem _ hv))
      cases a with
      | none => rw [sumOpt_cons_none]; exact ht
      | some v =>
          rw [sumOpt_cons_some]
          have := h v (List.mem_cons_self _ _)
          linarith

theorem sumOpt_pos_of_all_pos (l : List (Option ℚ))
    (hex : ∃ v : ℚ, some v ∈ l) (h : ∀ v : ℚ, some v ∈ l → 0 < v) :
    0 < sumOpt l := by
  induction l with
  | nil => obtain ⟨v, hv⟩ := hex; cases hv
  | cons a t ih =>
      cases a with
      | none =>
          rw [sumOpt_cons_none]
          obtain ⟨v, hv⟩ := hex
          rcases List.mem_cons.mp hv with hc | hc
          · cases hc
          · exact ih ⟨v, hc⟩ (fun v hv => h v (List.mem_cons_of_mem _ hv))
      | some v =>
          rw [sumOpt_cons_some]
          have hv := h v (List.mem_cons_self _ _)
          by_cases hext : ∃ w : ℚ, some w ∈ t
          · have := ih hext (fun w hw => h w (List.mem_cons_of_mem _ hw))
            linarith
          · have ht0 : sumOpt t = 0 :=
              sumOpt_eq_zero_of_no_some t (fun w hw => hext ⟨w, hw⟩)
            linarith

/-- In a weight column sorted descending with missing cells last, the
first `n ≥ 1` cells have positive sum whenever the whole column does:
if the head block summed to zero or less, its smallest entry would
dominate the tail, forcing the whole sum down. -/
theorem sumOpt_take_pos (s : List (Option ℚ))
    (hsort : s.Pairwise (fun a b => owKey b ≤ owKey a))
    (hsum : 0 < sumOpt s) (n : ℕ) (hn : 1 ≤ n) :
    0 < sumOpt (s.take n) := by
  by_contra hle
  push_neg at hle
  have hsplit : s = s.take n ++ s.drop n := (List.take_append_drop n s).symm
  have hsum2 : sumOpt s = sumOpt (s.take n) + sumOpt (s.drop n) := by
    conv_lhs => rw [hsplit]
    exact sumOpt_append _ _
  have hcross : ∀ a ∈ s.take n, ∀ b ∈ s.drop n, owKey b ≤ owKey a := by
    rw [hsplit] at hsort
    exact (List.pairwise_append.mp hsort).2.2
  have hs_ne : s ≠ [] := by
    intro h
    rw [h, sumOpt_nil] at hsum
    exact lt_irrefl 0 hsum
  have ht_ne : s.take n ≠ [] := by
    intro h
    rcases List.take_eq_nil_iff.mp h with h0 | h0
    · omega
    · exact hs_ne h0
  by_cases hallpos : ∀ v : ℚ, some v ∈ s.take n → 0 < v
  · by_cases hex : ∃ v : ℚ, some v ∈ s.take n
    · exact absurd (sumOpt_pos_of_all_pos _ hex hallpos) (not_lt.mpr hle)
    · have hdnone : ∀ w : ℚ, some w ∉ s.drop n := by
        intro w hw
        obtain ⟨a, ha⟩ := List.exists_mem_of_ne_nil _ ht_ne
        have hcb := hcross a ha (some w) hw
        cases a with
        | some va => exact hex ⟨va, ha⟩
        | none => simp [owKey] at hcb
      have h1 : sumOpt (s.take n) = 0 :=
        sumOpt_eq_zero_of_no_some _ (fun w hw => hex ⟨w, hw⟩)
      have h2 : sumOpt (s.drop n) = 0 :=
        sumOpt_eq_zero_of_no_some _ hdnone
      rw [hsum2, h1, h2] at hsum
      exact lt_irrefl 0 (by linarith)
  · push_neg at hallpos
    obtain ⟨v, hv, hv0⟩ := hallpos
    have hd : ∀ w : ℚ, some w ∈ s.drop n → w ≤ 0 := by
      intro w hw
      have hle2 := hcross (some v) hv (some w) hw
      simp only [owKey, WithBot.coe_le_coe] at hle2
      linarith
    have hd0 : sumOpt (s.drop n) ≤ 0 := sumOpt_nonpos_of_all_nonpos _ hd
    rw [hsum2] at hsum
    linarith

theorem map_proj_of_preserve {α γ : Type} (f : α → α) (p : α → γ)
    (h : ∀ r, p (f r) = p r) (l : List α) : (l.map f).map p = l.map p := by
  rw [List.map_map]
  exact List.map_congr_left (fun r _ => h r)

theorem resolveFill_map_proj {γ : Type}
    (cmap : Option (List (String × String))) (df : NPORTEnrichment.EFrame)
    (p : NPORTEnrichment.ERow → γ)
    (h1 : ∀ m r, p (NPORTEnrichment.fillIsinRow m r) = p r) :
    (NPORTEnrichment.resolveFill cmap df).rows.map p = df.rows.map p := by
  unfold NPORTEnrichment.resolveFill
  repeat' split
  all_goals first
    | rfl
    | exact map_proj_of_preserve _ p (h1 _) _

theorem resolveUnifyIsin_map_proj {γ : Type} (df : NPORTEnrichment.EFrame)
    (p : NPORTEnrichment.ERow → γ)
    (h2 : ∀ r, p (NPORTEnrichment.isinToInstrumentRow r) = p r) :
    (NPORTEnrichment.resolveUnifyIsin df).rows.map p = df.rows.map p := by
  unfold NPORTEnrichment.resolveUnifyIsin
  split
  · exact map_proj_of_preserve _ p h2 _
  · rfl

theorem resolveUnifyCusip_map_proj {γ : Type} (df : NPORTEnrichment.EFrame)
    (p : NPORTEnrichment.ERow → γ)
    (h3 : ∀ r, p (NPORTEnrichment.cusipToInstrumentRow r) = p r) :
    (NPORTEnrichment.resolveUnifyCusip df).rows.map p = df.rows.map p := by
  unfold NPORTEnrichment.resolveUnifyCusip
  split
  · exact map_proj_of_preserve _ p h3 _
  · rfl

theorem resolve_isin_map_proj {γ : Type}
    (cmap : Option (List (String × String))) (df : NPORTEnrichment.EFrame)
    (p : NPORTEnrichment.ERow → γ)
    (h1 : ∀ m r, p (NPORTEnrichment.fillIsinRow m r) = p r)
    (h2 : ∀ r, p (NPORTEnrichment.isinToInstrumentRow r) = p r)
    (h3 : ∀ r, p (NPORTEnrichment.cusipToInstrumentRow r) = p r) :
    (NPORTEnrichment.resolve_isin cmap df).rows.map p = df.rows.map p := by
  unfold NPORTEnrichment.resolve_isin
  rw [resolveUnifyCusip_map_proj _ p h3, resolveUnifyIsin_map_proj _ p h2,
    resolveFill_map_proj cmap df p h1]

theorem resolve_isin_flags (cmap : Option (List (String × String)))
    (df : NPORTEnrichment.EFrame) :
    (NPORTEnrichment.resolve_isin cmap df).hasMvLocal = df.hasMvLocal ∧
    (NPORTEnrichment.resolve_isin cmap df).hasCountryRaw = df.hasCountryRaw ∧
    (NPORTEnrichment.resolve_isin cmap df).hasCategoryRaw = df.hasCategoryRaw ∧
    (NPORTEnrichment.resolve_isin cmap df).hasWeightPct = df.hasWeightPct ∧
    (NPORTEnrichment.resolve_isin cmap df).hasCountry = df.hasCountry ∧
    (NPORTEnrichment.resolve_isin cmap df).hasAssetClass = df.hasAssetClass ∧
    (NPORTEnrichment.resolve_isin cmap df).hasSector = df.hasSector ∧
    (NPORTEnrichment.resolve_isin cmap df).hasInstrNameRaw = df.hasInstrNameRaw ∧
    (NPORTEnrichment.resolve_isin cmap df).rows.length = df.rows.length := by
  unfold NPORTEnrichment.resolve_isin NPORTEnrichment.resolveUnifyCusip
    NPORTEnrichment.resolveUnifyIsin NPORTEnrichment.resolveFill
  repeat' split
  all_goals simp

theorem compute_weights_map_proj {γ : Type} (df : NPORTEnrichment.EFrame)
    (p : NPORTEnrichment.ERow → γ)
    (h1 : ∀ t r, p (NPORTEnrichment.weightRow t r) = p r)
    (h2 : ∀ r, p (NPORTEnrichment.zeroWeightRow r) = p r) :
    (NPORTEnrichment.compute_weights df).1.rows.map p = df.rows.map p := by
  unfold NPORTEnrichment.compute_weights
  repeat' split
  all_goals first
    | rfl
    | exact map_proj_of_preserve _ p (h1 _) _
    | exact map_proj_of_preserve _ p h2 _

theorem compute_weights_flags (df : NPORTEnrichment.EFrame) :
    (NPORTEnrichment.compute_weights df).1.hasCountryRaw = df.hasCountryRaw ∧
    (NPORTEnrichment.compute_weights df).1.hasCategoryRaw = df.hasCategoryRaw ∧
    (NPORTEnrichment.compute_weights df).1.hasMvLocal = df.hasMvLocal ∧
    (NPORTEnrichment.compute_weights df).1.hasCountry = df.hasCountry ∧
    (NPORTEnrichment.compute_weights df).1.hasAssetClass = df.hasAssetClass ∧
    (NPORTEnrichment.compute_weights df).1.hasSector = df.hasSector ∧
    (NPORTEnrichment.compute_weights df).1.hasInstrNameRaw = df.hasInstrNameRaw ∧
    (NPORTEnrichment.compute_weights df).1.rows.length = df.rows.length := by
  unfold NPORTEnrichment.compute_weights
  repeat' split
  all_goals simp

theorem normCountry_map_proj {γ : Type} (df : NPORTEnrichment.EFrame)
    (p : NPORTEnrichment.ERow → γ)
    (h : ∀ r, p (NPORTEnrichment.countryRow r) = p r) :
    (NPORTEnrichment.normCountry df).rows.map p = df.rows.map p := by
  unfold NPORTEnrichment.normCountry
  split
  · exact map_proj_of_preserve _ p h _
  · rfl

theorem normAssetClass_map_proj {γ : Type} (df : NPORTEnrichment.EFrame)
    (p : NPORTEnrichment.ERow → γ)
    (h : ∀ r, p (NPORTEnrichment.assetClassRow r) = p r) :
    (NPORTEnrichment.normAssetClass df).rows.map p = df.rows.map p := by
  unfold NPORTEnrichment.normAssetClass
  split
  · exact map_proj_of_preserve _ p h _
  · rfl

theorem normSector_map_proj {γ : Type} (df : NPORTEnrichment.EFrame)
    (p : NPORTEnrichment.ERow → γ)
    (h : ∀ r, p (NPORTEnrichment.sectorRow r) = p r) :
    (NPORTEnrichment.normSector df).rows.map p = df.rows.map p := by
  unfold NPORTEnrichment.normSector
  split
  · exact map_proj_of_preserve _ p h _
  · rfl

theorem normInstrName_map_proj {γ : Type} (df : NPORTEnrichment.EFrame)
    (p : NPORTEnrichment.ERow → γ)
    (h : ∀ r, p (NPORTEnrichment.instrNameRow r) = p r) :
    (NPORTEnrichment.normInstrName df).rows.map p = df.rows.map p := by
  unfold NPORTEnrichment.normInstrName
  split
  · exact map_proj_of_preserve _ p h _
  · rfl

theorem normalize_map_proj {γ : Type} (df : NPORTEnrichment.EFrame)
    (p : NPORTEnrichment.ERow → γ)
    (h1 : ∀ r, p (NPORTEnrichment.countryRow r) = p r)
    (h2 : ∀ r, p (NPORTEnrichment.assetClassRow r) = p r)
    (h3 : ∀ r, p (NPORTEnrichment.sectorRow r) = p r)
    (h4 : ∀ r, p (NPORTEnrichment.instrNameRow r) = p r) :
    (NPORTEnrichment.normalize_classifications df).rows.map p = df.rows.map p := by
  unfold NPORTEnrichment.normalize_classifications
  rw [normInstrName_map_proj _ p h4, normSector_map_proj _ p h3,
    normAssetClass_map_proj _ p h2, normCountry_map_proj _ p h1]

theorem normalize_flags (df : NPORTEnrichment.EFrame) :
    (NPORTEnrichment.normalize_classifications df).hasCountryRaw = df.hasCountryRaw ∧
    (NPORTEnrichment.normalize_classifications df).hasCategoryRaw = df.hasCategoryRaw ∧
    (NPORTEnrichment.normalize_classifications df).hasMvLocal = df.hasMvLocal ∧
    (NPORTEnrichment.normalize_classifications df).hasWeightPct = df.hasWeightPct ∧
    (NPORTEnrichment.normalize_classifications df).rows.length = df.rows.length := by
  unfold NPORTEnrichment.normalize_classifications NPORTEnrichment.normInstrName
    NPORTEnrichment.normSector NPORTEnrichment.normAssetClass
    NPORTEnrichment.normCountry
  repeat' split
  all_goals simp

theorem fillIsinRow_preserve {γ : Type} (m : List (String × String))
    (p : NPORTEnrichment.ERow → γ)
    (hp : ∀ r v, p { r with isin := v } = p r) (r : NPORTEnrichment.ERow) :
    p (NPORTEnrichment.fillIsinRow m r) = p r := by
  unfold NPORTEnrichment.fillIsinRow
  split
  · exact hp r _
  · rfl

theorem normCountry_flags (df : NPORTEnrichment.EFrame) :
    (NPORTEnrichment.normCountry df).hasCategoryRaw = df.hasCategoryRaw ∧
    (NPORTEnrichment.normCountry df).hasAssetClass = df.hasAssetClass ∧
    (NPORTEnrichment.normCountry df).hasSector = df.hasSector ∧
    (NPORTEnrichment.normCountry df).hasInstrNameRaw = df.hasInstrNameRaw ∧
    (NPORTEnrichment.normCountry df).hasWeightPct = df.hasWeightPct := by
  unfold NPORTEnrichment.normCountry
  split <;> simp

theorem normAssetClass_flags (df : NPORTEnrichment.EFrame) :
    (NPORTEnrichment.normAssetClass df).hasCountry = df.hasCountry ∧
    (NPORTEnrichment.normAssetClass df).hasSector = df.hasSector ∧
    (NPORTEnrichment.normAssetClass df).hasInstrNameRaw = df.hasInstrNameRaw ∧
    (NPORTEnrichment.normAssetClass df).hasWeightPct = df.hasWeightPct := by
  unfold NPORTEnrichment.normAssetClass
  split <;> simp

theorem normSector_flags (df : NPORTEnrichment.EFrame) :
    (NPORTEnrichment.normSector df).hasCountry = df.hasCountry ∧
    (NPORTEnrichment.normSector df).hasAssetClass = df.hasAssetClass ∧
    (NPORTEnrichment.normSector df).hasInstrNameRaw = df.hasInstrNameRaw ∧
    (NPORTEnrichment.normSector df).hasWeightPct = df.hasWeightPct := by
  unfold NPORTEnrichment.normSector
  split <;> simp

theorem normInstrName_flags (df : NPORTEnrichment.EFrame) :
    (NPORTEnrichment.normInstrName df).hasCountry = df.hasCountry ∧
    (NPORTEnrichment.normInstrName df).hasAssetClass = df.hasAssetClass ∧
    (NPORTEnrichment.normInstrName df).hasWeightPct = df.hasWeightPct := by
  unfold NPORTEnrichment.normInstrName
  split <;> simp

section EnrichCols

open NPORTEnrichment

/-- The country value `_normalize_classifications` computes from a raw
country cell. -/
theorem countryFromRaw_def (r : ERow) :
    (countryRow r).country
      = some (applyMap country_map (pyUpper (r.country_raw.getD "UNKNOWN"))) := rfl

theorem weightPctCol_stamp (d : EFrame) :
    weightPctCol (stampFrame d) = weightPctCol d := by
  unfold weightPctCol stampFrame
  rw [map_proj_of_preserve stampRow (fun r => r.weight_pct) (fun r => rfl)]

theorem weightPctCol_normalize (d : EFrame) :
    weightPctCol (normalize_classifications d) = weightPctCol d := by
  unfold weightPctCol
  rw [normalize_map_proj d (fun r => r.weight_pct) (fun r => rfl) (fun r => rfl)
      (fun r => rfl) (fun r => rfl),
    (normalize_flags d).2.2.2.1]

theorem weightPctCol_resolve (cmap : Option (List (String × String)))
    (d : EFrame) : weightPctCol (resolve_isin cmap d) = weightPctCol d := by
  unfold weightPctCol
  rw [resolve_isin_map_proj cmap d (fun r => r.weight_pct)
      (fun m r => fillIsinRow_preserve m (fun r => r.weight_pct) (fun _ _ => rfl) r)
      (fun r => rfl) (fun r => rfl),
    (resolve_isin_flags cmap d).2.2.2.1]

theorem countryCol_stamp (d : EFrame) :
    countryCol (stampFrame d) = countryCol d := by
  unfold countryCol stampFrame
  rw [map_proj_of_preserve stampRow (fun r => r.country) (fun r => rfl)]

theorem countryCol_compute (d : EFrame) :
    countryCol (compute_weights d).1 = countryCol d := by
  unfold countryCol
  rw [compute_weights_map_proj d (fun r => r.country) (fun t r => rfl)
      (fun r => rfl),
    (compute_weights_flags d).2.2.2.1]

theorem countryCol_resolve (cmap : Option (List (String × String)))
    (d : EFrame) : countryCol (resolve_isin cmap d) = countryCol d := by
  unfold countryCol
  rw [resolve_isin_map_proj cmap d (fun r => r.country)
      (fun m r => fillIsinRow_preserve m (fun r => r.country) (fun _ _ => rfl) r)
      (fun r => rfl) (fun r => rfl),
    (resolve_isin_flags cmap d).2.2.2.2.1]

theorem countryCol_normInstrName (d : EFrame) :
    countryCol (normInstrName d) = countryCol d := by
  unfold countryCol
  rw [normInstrName_map_proj d (fun r => r.country) (fun r => rfl),
    (normInstrName_flags d).1]

theorem countryCol_normSector (d : EFrame) :
    countryCol (normSector d) = countryCol d := by
  unfold countryCol
  rw [normSector_map_proj d (fun r => r.country) (fun r => rfl),
    (normSector_flags d).1]

theorem countryCol_normAssetClass (d : EFrame) :
    countryCol (normAssetClass d) = countryCol d := by
  unfold countryCol
  rw [normAssetClass_map_proj d (fun r => r.country) (fun r => rfl),
    (normAssetClass_flags d).1]

theorem countryCol_normCountry (d : EFrame) :
    countryCol (normCountry d)
      = if d.hasCountryRaw then
          some (d.rows.map (fun r =>
            some (applyMap country_map (pyUpper (r.country_raw.getD "UNKNOWN")))))
        else countryCol d := by
  unfold countryCol normCountry
  by_cases h : d.hasCountryRaw
  · simp only [h, if_true]
    rw [List.map_map]
    rfl
  · simp only [h, if_false, Bool.false_eq_true]

theorem countryCol_normalize (d : EFrame) :
    countryCol (normalize_classifications d)
      = if d.hasCountryRaw then
          some (d.rows.map (fun r =>
            some (applyMap country_map (pyUpper (r.country_raw.getD "UNKNOWN")))))
        else countryCol d := by
  unfold normalize_classifications
  rw [countryCol_normInstrName, countryCol_normSector, countryCol_normAssetClass,
    countryCol_normCountry]

theorem assetClassCol_stamp (d : EFrame) :
    assetClassCol (stampFrame d) = assetClassCol d := by
  unfold assetClassCol stampFrame
  rw [map_proj_of_preserve stampRow (fun r => r.asset_class) (fun r => rfl)]

theorem assetClassCol_compute (d : EFrame) :
    assetClassCol (compute_weights d).1 = assetClassCol d := by
  unfold assetClassCol
  rw [compute_weights_map_proj d (fun r => r.asset_class) (fun t r => rfl)
      (fun r => rfl),
    (compute_weights_flags d).2.2.2.2.1]

theorem assetClassCol_resolve (cmap : Option (List (String × String)))
    (d : EFrame) : assetClassCol (resolve_isin cmap d) = assetClassCol d := by
  unfold assetClassCol
  rw [resolve_isin_map_proj cmap d (fun r => r.asset_class)
      (fun m r => fillIsinRow_preserve m (fun r => r.asset_class) (fun _ _ => rfl) r)
      (fun r => rfl) (fun r => rfl),
    (resolve_isin_flags cmap d).2.2.2.2.2.1]

theorem assetClassCol_normInstrName (d : EFrame) :
    assetClassCol (normInstrName d) = assetClassCol d := by
  unfold assetClassCol
  rw [normInstrName_map_proj d (fun r => r.asset_class) (fun r => rfl),
    (normInstrName_flags d).2.1]

theorem assetClassCol_normSector (d : EFrame) :
    assetClassCol (normSector d) = assetClassCol d := by
  unfold assetClassCol
  rw [normSector_map_proj d (fun r => r.asset_class) (fun r => rfl),
    (normSector_flags d).2.1]

theorem assetClassCol_normAssetClass (d : EFrame) :
    assetClassCol (normAssetClass d)
      = if d.hasCategoryRaw then
          some (d.rows.map (fun r =>
            some (applyMap asset_class_map (pyTitle (r.category_raw.getD "Unknown")))))
        else assetClassCol d := by
  unfold assetClassCol normAssetClass
  by_cases h : d.hasCategoryRaw
  · simp only [h, if_true]
    rw [List.map_map]
    rfl
  · simp only [h, if_false, Bool.false_eq_true]

theorem assetClassCol_normCountry (d : EFrame) :
    assetClassCol (normCountry d) = assetClassCol d := by
  unfold assetClassCol
  rw [normCountry_map_proj d (fun r => r.asset_class) (fun r => rfl),
    (normCountry_flags d).2.1]

theorem assetClassCol_normalize (d : EFrame) :
    assetClassCol (normalize_classifications d)
      = if d.hasCategoryRaw then
          some (d.rows.map (fun r =>
            some (applyMap asset_class_map (pyTitle (r.category_raw.getD "Unknown")))))
        else assetClassCol d := by
  unfold normalize_classifications
  rw [assetClassCol_normInstrName, assetClassCol_normSector,
    assetClassCol_normAssetClass]
  rw [(normCountry_flags d).1]
  by_cases h : d.hasCategoryRaw
  · simp only [h, if_true]
    rw [normCountry_map_proj d
      (fun r => some (applyMap asset_class_map (pyTitle (r.category_raw.getD "Unknown"))))
      (fun r => rfl)]
  · simp only [h, if_false, Bool.false_eq_true]
    exact assetClassCol_normCountry d

theorem stampFrame_length (d : EFrame) :
    (stampFrame d).rows.length = d.rows.length := by
  unfold stampFrame
  simp

theorem enrich_length (cmap : Option (List (String × String))) (df : EFrame) :
    (enrich_holdings cmap df).1.rows.length = df.rows.length := by
  unfold enrich_holdings
  by_cases h : df.rows.isEmpty = true
  · simp [h]
  · simp only [h, Bool.false_eq_true, if_false]
    rw [stampFrame_length, (normalize_flags _).2.2.2.2,
      (compute_weights_flags _).2.2.2.2.2.2.2,
      (resolve_isin_flags cmap df).2.2.2.2.2.2.2.2]

theorem total_value_resolve (cmap : Option (List (String × String)))
    (df : EFrame) : total_value (resolve_isin cmap df) = total_value df := by
  unfold total_value
  rw [resolve_isin_map_proj cmap df (fun r => r.market_value_local.map posPart)
    (fun m r => fillIsinRow_preserve m
      (fun r => r.market_value_local.map posPart) (fun _ _ => rfl) r)
    (fun r => rfl) (fun r => rfl)]

theorem weightRow_cells (t : ℚ) (l : List ERow) :
    (l.map (weightRow t)).map (fun r => r.weight_pct)
      = l.map (fun r => r.market_value_local.map
          (fun v => posPart v / t * 100)) := by
  rw [List.map_map]
  rfl

theorem zeroWeightRow_cells (l : List ERow) :
    (l.map zeroWeightRow).map (fun r => r.weight_pct)
      = l.map (fun _ => some (0 : ℚ)) := by
  rw [List.map_map]
  rfl

/-- The weight column and warning list `enrich_holdings` produces, as a
function of the input frame. -/
theorem enrich_weight_warn (cmap : Option (List (String × String)))
    (df : EFrame) (hne : df.rows.isEmpty = false) :
    weightPctCol (enrich_holdings cmap df).1
      = (if df.hasMvLocal then
          (if 0 < total_value df then
            some (df.rows.map (fun r => r.market_value_local.map
              (fun v => posPart v / total_value df * 100)))
           else some (df.rows.map (fun _ => some (0 : ℚ))))
         else weightPctCol df) ∧
    (enrich_holdings cmap df).2
      = (if df.hasMvLocal then
          (if 0 < total_value df then [] else [EWarning.zeroOrNegativeTotal])
         else [EWarning.noMvColumn]) := by
  unfold enrich_holdings
  simp only [hne, Bool.false_eq_true, if_false]
  have hmvl := (resolve_isin_flags cmap df).1
  have htot := total_value_resolve cmap df
  by_cases hm : df.hasMvLocal = true
  case pos =>
    by_cases ht : 0 < total_value df
    case pos =>
      have hcw : compute_weights (resolve_isin cmap df)
          = ({ resolve_isin cmap df with
                hasWeightPct := true, hasMvEur := true
                rows := (resolve_isin cmap df).rows.map
                  (weightRow (total_value (resolve_isin cmap df))) }, []) := by
        unfold compute_weights
        simp only [hmvl, hm, htot, ht, if_true, Bool.not_true,
          Bool.false_eq_true, if_false]
      rw [weightPctCol_stamp, weightPctCol_normalize, hcw]
      constructor
      · unfold weightPctCol
        simp only [if_true]
        rw [weightRow_cells, htot,
          resolve_isin_map_proj cmap df
            (fun r => r.market_value_local.map
              (fun v => posPart v / total_value df * 100))
            (fun m r => fillIsinRow_preserve m
              (fun r => r.market_value_local.map
                (fun v => posPart v / total_value df * 100)) (fun _ _ => rfl) r)
            (fun r => rfl) (fun r => rfl)]
        simp [hm, ht]
      · simp [hm, ht]
    case neg =>
      have hcw : compute_weights (resolve_isin cmap df)
          = ({ resolve_isin cmap df with
                hasWeightPct := true, hasMvEur := true
                rows := (resolve_isin cmap df).rows.map zeroWeightRow },
             [EWarning.zeroOrNegativeTotal]) := by
        unfold compute_weights
        simp only [hmvl, hm, htot, ht, if_true, Bool.not_true,
          Bool.false_eq_true, if_false]
      rw [weightPctCol_stamp, weightPctCol_normalize, hcw]
      constructor
      · unfold weightPctCol
        simp only [if_true]
        rw [zeroWeightRow_cells,
          resolve_isin_map_proj cmap df (fun _ => some (0 : ℚ))
            (fun m r => fillIsinRow_preserve m (fun _ => some (0 : ℚ))
              (fun _ _ => rfl) r)
            (fun r => rfl) (fun r => rfl)]
        simp [hm, ht]
      · simp [hm, ht]
  case neg =>
    have hmf : df.hasMvLocal = false := by
      cases hv : df.hasMvLocal
      · rfl
      · exact absurd hv hm
    have hcw : compute_weights (resolve_isin cmap df)
        = (resolve_isin cmap df, [EWarning.noMvColumn]) := by
      unfold compute_weights
      simp only [hmvl, hmf, Bool.not_false, if_true]
    rw [weightPctCol_stamp, weightPctCol_normalize, hcw]
    constructor
    · rw [weightPctCol_resolve]
      simp [hmf]
    · simp [hmf]

theorem stampFrame_flags (d : EFrame) :
    (stampFrame d).hasCountryRaw = d.hasCountryRaw ∧
    (stampFrame d).hasCategoryRaw = d.hasCategoryRaw ∧
    (stampFrame d).hasMvLocal = d.hasMvLocal :=
  ⟨rfl, rfl, rfl⟩

/-- Enrichment never writes the raw input columns: the `country_raw`,
`category_raw` and `market_value_local` cells and their presence flags
survive `enrich_holdings` unchanged. -/
theorem enrich_preserves_raws (cmap : Option (List (String × String)))
    (df : EFrame) :
    (enrich_holdings cmap df).1.hasCountryRaw = df.hasCountryRaw ∧
    (enrich_holdings cmap df).1.hasCategoryRaw = df.hasCategoryRaw ∧
    (enrich_holdings cmap df).1.hasMvLocal = df.hasMvLocal ∧
    (enrich_holdings cmap df).1.rows.map (fun r => r.country_raw)
      = df.rows.map (fun r => r.country_raw) ∧
    (enrich_holdings cmap df).1.rows.map (fun r => r.category_raw)
      = df.rows.map (fun r => r.category_raw) ∧
    (enrich_holdings cmap df).1.rows.map (fun r => r.market_value_local)
      = df.rows.map (fun r => r.market_value_local) := by
  unfold enrich_holdings
  by_cases h : df.rows.isEmpty = true
  · simp [h]
  · simp only [h, Bool.false_eq_true, if_false]
    refine ⟨?_, ?_, ?_, ?_, ?_, ?_⟩
    · rw [(stampFrame_flags _).1, (normalize_flags _).1,
        (compute_weights_flags _).1, (resolve_isin_flags cmap df).2.1]
    · rw [(stampFrame_flags _).2.1, (normalize_flags _).2.1,
        (compute_weights_flags _).2.1, (resolve_isin_flags cmap df).2.2.1]
    · rw [(stampFrame_flags _).2.2, (normalize_flags _).2.2.1,
        (compute_weights_flags _).2.2.1, (resolve_isin_flags cmap df).1]
    · show ((normalize_classifications _).rows.map stampRow).map _ = _
      rw [map_proj_of_preserve stampRow (fun r => r.country_raw) (fun r => rfl),
        normalize_map_proj _ (fun r => r.country_raw) (fun r => rfl)
          (fun r => rfl) (fun r => rfl) (fun r => rfl),
        compute_weights_map_proj _ (fun r => r.country_raw) (fun t r => rfl)
          (fun r => rfl),
        resolve_isin_map_proj cmap df (fun r => r.country_raw)
          (fun m r => fillIsinRow_preserve m (fun r => r.country_raw)
            (fun _ _ => rfl) r) (fun r => rfl) (fun r => rfl)]
    · show ((normalize_classifications _).rows.map stampRow).map _ = _
      rw [map_proj_of_preserve stampRow (fun r => r.category_raw) (fun r => rfl),
        normalize_map_proj _ (fun r => r.category_raw) (fun r => rfl)
          (fun r => rfl) (fun r => rfl) (fun r => rfl),
        compute_weights_map_proj _ (fun r => r.category_raw) (fun t r => rfl)
          (fun r => rfl),
        resolve_isin_map_proj cmap df (fun r => r.category_raw)
          (fun m r => fillIsinRow_preserve m (fun r => r.category_raw)
            (fun _ _ => rfl) r) (fun r => rfl) (fun r => rfl)]
    · show ((normalize_classifications _).rows.map stampRow).map _ = _
      rw [map_proj_of_preserve stampRow (fun r => r.market_value_local)
          (fun r => rfl),
        normalize_map_proj _ (fun r => r.market_value_local) (fun r => rfl)
          (fun r => rfl) (fun r => rfl) (fun r => rfl),
        compute_weights_map_proj _ (fun r => r.market_value_local)
          (fun t r => rfl) (fun r => rfl),
        resolve_isin_map_proj cmap df (fun r => r.market_value_local)
          (fun m r => fillIsinRow_preserve m (fun r => r.market_value_local)
            (fun _ _ => rfl) r) (fun r => rfl) (fun r => rfl)]

/-- The country column `enrich_holdings` produces. -/
theorem enrich_countryCol (cmap : Option (List (String × String)))
    (df : EFrame) (hne : df.rows.isEmpty = false) :
    countryCol (enrich_holdings cmap df).1
      = if df.hasCountryRaw then
          some (df.rows.map (fun r =>
            some (applyMap country_map (pyUpper (r.country_raw.getD "UNKNOWN")))))
        else countryCol df := by
  unfold enrich_holdings
  simp only [hne, Bool.false_eq_true, if_false]
  rw [countryCol_stamp, countryCol_normalize,
    (compute_weights_flags _).1, (resolve_isin_flags cmap df).2.1]
  by_cases h : df.hasCountryRaw = true
  · simp only [h, if_true]
    rw [compute_weights_map_proj _
        (fun r => some (applyMap country_map (pyUpper (r.country_raw.getD "UNKNOWN"))))
        (fun t r => rfl) (fun r => rfl),
      resolve_isin_map_proj cmap df
        (fun r => some (applyMap country_map (pyUpper (r.country_raw.getD "UNKNOWN"))))
        (fun m r => fillIsinRow_preserve m
          (fun r => some (applyMap country_map (pyUpper (r.country_raw.getD "UNKNOWN"))))
          (fun _ _ => rfl) r)
        (fun r => rfl) (fun r => rfl)]
  · simp only [h, Bool.false_eq_true, if_false]
    rw [countryCol_compute, countryCol_resolve]

/-- The asset-class column `enrich_holdings` produces. -/
theorem enrich_assetClassCol (cmap : Option (List (String × String)))
    (df : EFrame) (hne : df.rows.isEmpty = false) :
    assetClassCol (enrich_holdings cmap df).1
      = if df.hasCategoryRaw then
          some (df.rows.map (fun r =>
            some (applyMap asset_class_map (pyTitle (r.category_raw.getD "Unknown")))))
        else assetClassCol df := by
  unfold enrich_holdings
  simp only [hne, Bool.false_eq_true, if_false]
  rw [assetClassCol_stamp, assetClassCol_normalize,
    (compute_weights_flags _).2.1, (resolve_isin_flags cmap df).2.2.1]
  by_cases h : df.hasCategoryRaw = true
  · simp only [h, if_true]
    rw [compute_weights_map_proj _
        (fun r => some (applyMap asset_class_map (pyTitle (r.category_raw.getD "Unknown"))))
        (fun t r => rfl) (fun r => rfl),
      resolve_isin_map_proj cmap df
        (fun r => some (applyMap asset_class_map (pyTitle (r.category_raw.getD "Unknown"))))
        (fun m r => fillIsinRow_preserve m
          (fun r => some (applyMap asset_class_map (pyTitle (r.category_raw.getD "Unknown"))))
          (fun _ _ => rfl) r)
        (fun r => rfl) (fun r => rfl)]
  · simp only [h, Bool.false_eq_true, if_false]
    rw [assetClassCol_compute, assetClassCol_resolve]

end EnrichCols

theorem sortAscBy_pairwise {α κ : Type} [LinearOrder κ] (k : α → κ)
    (l : List α) : (sortAscBy k l).Pairwise (fun a b => k a ≤ k b) := by
  haveI : IsTotal α (fun a b => k a ≤ k b) := ⟨fun a b => le_total (k a) (k b)⟩
  haveI : IsTrans α (fun a b => k a ≤ k b) :=
    ⟨fun _ _ _ hab hbc => le_trans hab hbc⟩
  exact List.sorted_insertionSort _ l

theorem sortAscBy_perm {α κ : Type} [LinearOrder κ] (k : α → κ) (l : List α) :
    (sortAscBy k l).Perm l :=
  List.perm_insertionSort _ l

theorem sortDescBy_pairwise {α κ : Type} [LinearOrder κ] (k : α → κ)
    (l : List α) : (sortDescBy k l).Pairwise (fun a b => k b ≤ k a) := by
  haveI : IsTotal α (fun a b => k b ≤ k a) := ⟨fun a b => le_total (k b) (k a)⟩
  haveI : IsTrans α (fun a b => k b ≤ k a) :=
    ⟨fun _ _ _ hab hbc => le_trans hbc hab⟩
  exact List.sorted_insertionSort _ l

theorem sortDescBy_perm {α κ : Type} [LinearOrder κ] (k : α → κ) (l : List α) :
    (sortDescBy k l).Perm l :=
  List.perm_insertionSort _ l

theorem weightSource_mem :
    ∀ (cands : List (Bool × List (Option ℚ))) (col : List (Option ℚ)),
      PrimaryHoldings.weightSource cands = some col →
        ∃ pr ∈ cands, pr.2 = col := by
  intro cands
  induction cands with
  | nil => intro col h; cases h
  | cons c rest ih =>
      intro col h
      unfold PrimaryHoldings.weightSource at h
      split at h
      · cases h
        exact ⟨c, List.mem_cons_self _ _, rfl⟩
      · obtain ⟨pr, hm, he⟩ := ih col h
        exact ⟨pr, List.mem_cons_of_mem _ hm, he⟩

/-- Every weight series `selectSeries` can return has one cell per row. -/
theorem selectSeries_length (df : PrimaryHoldings.PHFrame)
    (ws : List (Option ℚ)) (h : PrimaryHoldings.selectSeries df = .ok ws) :
    ws.length = df.rows.length := by
  unfold PrimaryHoldings.selectSeries at h
  cases hws : PrimaryHoldings.weightSource (PrimaryHoldings.weightCandidates df) with
  | some col =>
      rw [hws] at h
      simp only [Except.ok.injEq] at h
      subst h
      obtain ⟨pr, hm, he⟩ :=
        weightSource_mem (PrimaryHoldings.weightCandidates df) col hws
      subst he
      unfold PrimaryHoldings.weightCandidates at hm
      simp only [List.mem_cons, List.not_mem_nil, or_false] at hm
      rcases hm with hc | hc | hc | hc <;>
        · rw [hc]
          simp
  | none =>
      rw [hws] at h
      split at h
      next heq => exact Option.noConfusion heq
      next =>
        split at h
        · split at h
          · cases h
          · simp only [Except.ok.injEq] at h
            subst h
            simp
        · split at h
          · split at h
            · cases h
            · simp only [Except.ok.injEq] at h
              subst h
              simp
          · cases h

/-- The normalised weight cells are the series cells divided by the
series total. -/
theorem normalizedRows_weights (df : PrimaryHoldings.PHFrame)
    (ws : List (Option ℚ)) (hlen : ws.length = df.rows.length) :
    (PrimaryHoldings.normalizedRows df ws).map (fun r => r.weight)
      = ws.map (Option.map (· / sumOpt ws)) := by
  unfold PrimaryHoldings.normalizedRows
  rw [List.map_map]
  have h1 : ((fun r : PrimaryHoldings.PrepRow => r.weight) ∘
      (fun p : PrimaryHoldings.PHRow × Option ℚ =>
        PrimaryHoldings.PrepRow.mk p.1 (p.2.map (· / sumOpt ws))))
      = fun p => p.2.map (· / sumOpt ws) := rfl
  rw [h1]
  have h2 : (df.rows.zip ws).map (fun p => p.2.map (· / sumOpt ws))
      = ((df.rows.zip ws).map Prod.snd).map (Option.map (· / sumOpt ws)) := by
    rw [List.map_map]
    rfl
  rw [h2, List.map_snd_zip _ _ (le_of_eq hlen)]

/-- What `finishHoldings` guarantees for an explicit positive
`max_positions`: exactly `min n available` rows and an exact weight sum
of 1. -/
theorem finishHoldings_spec (df : PrimaryHoldings.PHFrame)
    (ws : List (Option ℚ)) (n : ℕ) (out : List PrimaryHoldings.PrepRow)
    (hlen : ws.length = df.rows.length)
    (h : PrimaryHoldings.finishHoldings df (some n) ws = .ok out)
    (hn : 1 ≤ n) :
    out.length = min n df.rows.length ∧
    sumOpt (out.map (fun r => r.weight)) = 1 := by
  unfold PrimaryHoldings.finishHoldings at h
  by_cases htz : sumOpt ws = 0
  · rw [if_pos htz] at h
    cases h
  · rw [if_neg htz] at h
    simp only [Except.ok.injEq] at h
    subst h
    have hwcol := normalizedRows_weights df ws hlen
    have hsum1 : sumOpt ((PrimaryHoldings.normalizedRows df ws).map
        (fun r => r.weight)) = 1 := by
      rw [hwcol, sumOpt_map_div]
      field_simp
    have hperm : (PrimaryHoldings.sortedRows df ws).Perm
        (PrimaryHoldings.normalizedRows df ws) := sortDescBy_perm _ _
    have hsorted_len : (PrimaryHoldings.sortedRows df ws).length
        = df.rows.length := by
      rw [hperm.length_eq]
      unfold PrimaryHoldings.normalizedRows
      rw [List.length_map, List.length_zip, hlen]
      exact min_self _
    have hsum_sorted : sumOpt ((PrimaryHoldings.sortedRows df ws).map
        (fun r => r.weight)) = 1 := by
      rw [sumOpt_perm (hperm.map _), hsum1]
    have hpair : ((PrimaryHoldings.sortedRows df ws).map
        (fun r => r.weight)).Pairwise (fun a b => owKey b ≤ owKey a) := by
      rw [List.pairwise_map]
      exact sortDescBy_pairwise
        (fun pr : PrimaryHoldings.PrepRow => owKey pr.weight) _
    have hspos : 0 < sumOpt (((PrimaryHoldings.sortedRows df ws).take n).map
        (fun r => r.weight)) := by
      have hp := sumOpt_take_pos ((PrimaryHoldings.sortedRows df ws).map
        (fun r => r.weight)) hpair (by rw [hsum_sorted]; norm_num) n hn
      rwa [← List.map_take] at hp
    constructor
    · rw [List.length_map, List.length_take, hsorted_len]
    · have hout : (((PrimaryHoldings.sortedRows df ws).take n).map
          (fun pr => PrimaryHoldings.PrepRow.mk pr.row (pr.weight.map
            (· / sumOpt (((PrimaryHoldings.sortedRows df ws).take n).map
              (·.weight)))))).map (fun r => r.weight)
          = (((PrimaryHoldings.sortedRows df ws).take n).map
              (fun r => r.weight)).map (Option.map
                (· / sumOpt (((PrimaryHoldings.sortedRows df ws).take n).map
                  (·.weight)))) := by
        rw [List.map_map, List.map_map]
        rfl
      rw [hout, sumOpt_map_div]
      have hne0 : sumOpt (((PrimaryHoldings.sortedRows df ws).take n).map
          (fun r => r.weight)) ≠ 0 := ne_of_gt hspos
      exact div_self hne0

/-- In a list sorted by a reflexive pairwise relation the last element is
related from every element. -/
theorem pairwise_getLast_max {α : Type} (r : α → α → Prop)
    (hrefl : ∀ a, r a a) :
    ∀ (l : List α), l.Pairwise r → ∀ x, l.getLast? = some x →
      ∀ y ∈ l, r y x := by
  intro l
  induction l with
  | nil => intro _ x hx; cases hx
  | cons a t ih =>
      intro hp x hx y hy
      cases t with
      | nil =>
          simp only [List.getLast?_singleton, Option.some.injEq] at hx
          simp only [List.mem_singleton] at hy
          subst hx; subst hy
          exact hrefl y
      | cons b t2 =>
          rw [List.getLast?_cons_cons] at hx
          rcases List.mem_cons.mp hy with hya | hyt
          · subst hya
            exact (List.pairwise_cons.mp hp).1 x
              (List.mem_of_mem_getLast? hx)
          · exact ih (List.pairwise_cons.mp hp).2 x hx y hyt

theorem getJsonAux_attempts_le (oracle : ℕ → Except Unit BDIFDiscovery.Payload)
    (fuel : ℕ) : ∀ a, (BDIFDiscovery.getJsonAux oracle a fuel).2.1 ≤ fuel := by
  induction fuel with
  | zero => intro a; simp [BDIFDiscovery.getJsonAux]
  | succ n ih =>
      intro a
      unfold BDIFDiscovery.getJsonAux
      cases ho : oracle a with
      | ok p => simp
      | error e =>
          by_cases h : BDIFDiscovery.MAX_RETRIES ≤ a
          · simp [h]
          · simp only [h, if_false]
            exact Nat.succ_le_succ (ih (a + 1))

theorem getJsonAux_ok (oracle : ℕ → Except Unit BDIFDiscovery.Payload)
    (fuel : ℕ) : ∀ a p, (BDIFDiscovery.getJsonAux oracle a fuel).1 = some p →
      ∃ i, oracle i = .ok p := by
  induction fuel with
  | zero => intro a p h; simp [BDIFDiscovery.getJsonAux] at h
  | succ n ih =>
      intro a p h
      unfold BDIFDiscovery.getJsonAux at h
      cases ho : oracle a with
      | ok q =>
          rw [ho] at h
          simp only [Option.some.injEq] at h
          exact ⟨a, by rw [ho, h]⟩
      | error e =>
          rw [ho] at h
          by_cases hm : BDIFDiscovery.MAX_RETRIES ≤ a
          · simp [hm] at h
          · simp only [hm, if_false] at h
            exact ih (a + 1) p h

theorem get_json_all_error (oracle : ℕ → Except Unit BDIFDiscovery.Payload)
    (h : ∀ a, oracle a = .error ()) :
    BDIFDiscovery.get_json oracle
      = (none, BDIFDiscovery.MAX_RETRIES,
         [BDIFDiscovery.BACKOFF_SECONDS * 1, BDIFDiscovery.BACKOFF_SECONDS * 2]) := by
  simp [BDIFDiscovery.get_json, BDIFDiscovery.getJsonAux, h,
    BDIFDiscovery.MAX_RETRIES]

theorem discoverGo_all_skip (oracle : ℕ → ℕ → Except Unit BDIFDiscovery.Payload)
    (isin : String) (target : Option ℤ)
    (h : ∀ qi, (BDIFDiscovery.get_json (oracle qi)).1 = none ∨
        ∀ p, (BDIFDiscovery.get_json (oracle qi)).1 = some p →
          (p.records.filterMap (BDIFDiscovery.processRecord isin target)).isEmpty) :
    ∀ qis, BDIFDiscovery.discoverGo oracle isin target qis = [] := by
  intro qis
  induction qis with
  | nil => rfl
  | cons qi rest ih =>
      unfold BDIFDiscovery.discoverGo
      cases hq : (BDIFDiscovery.get_json (oracle qi)).1 with
      | none => simp only [hq]; exact ih
      | some p =>
          rcases h qi with hn | hrec
          · rw [hq] at hn; cases hn
          · simp only [hq, hrec p hq, if_true]
            exact ih

/-! ## Claim theorems -/

/-- Claim C10, counterexample: the spec's first example fails — on
`"1.234,56"` both a dot and a comma are present, so `_parse_float` falls
into the branch that deletes commas and keeps the dot as the decimal
point, yielding `1.23456`, not `1234.56`. -/
theorem C10_counterexample :
    CC.BDIFParser.parse_float "1.234,56" ≠ some (1234.56 : ℚ) := by
  have h : CC.BDIFParser.parse_float "1.234,56" = some (3858 / 3125 : ℚ) := by
    with_unfolding_all rfl
  rw [h]
  intro hc
  have h2 := Option.some.inj hc
  norm_num at h2

/-- Claim C10, amended: `_parse_float` handles space and no-break-space
thousand separators with comma decimals, currency symbols, percent
signs, parenthesised negatives and US-style `1,234.56`; but a string
containing both `.` and `,` has its commas deleted and the dot kept as
the decimal point, so `"1.234,56"` parses to `1.23456` (`= 3858/3125`)
rather than `1234.56`. -/
theorem C10_theorem :
    CC.BDIFParser.parse_float "1 234,56" = some (1234.56 : ℚ) ∧
    CC.BDIFParser.parse_float "(123,45)" = some (-123.45 : ℚ) ∧
    CC.BDIFParser.parse_float "12,5 %" = some (12.5 : ℚ) ∧
    CC.BDIFParser.parse_float "12,5 €" = some (12.5 : ℚ) ∧
    CC.BDIFParser.parse_float "1,234.56" = some (1234.56 : ℚ) ∧
    CC.BDIFParser.parse_float "1.234,56" = some (3858 / 3125 : ℚ) := by
  refine ⟨?_, ?_, ?_, ?_, ?_, ?_⟩ <;> with_unfolding_all rfl

/-- Claim C8, counterexample: the merge in `_add_registry_entry` does
not only fill missing fields — a non-`None` value in the discovered
entry overwrites the stored one.  Here the stored `name` "Old Name" is
replaced by "New Name". -/
theorem C8_counterexample :
    AutoRegistry.dictGet
        (AutoRegistry.merge_entry
          [("name", some (.str "Old Name")), ("domicile", some (.str "US"))]
          [("name", some (.str "New Name"))])
        "name"
      ≠ AutoRegistry.dictGet
          [("name", some (.str "Old Name")), ("domicile", some (.str "US"))]
          "name" := by
  decide

/-- Claim C8, amended: the merge never deletes fields — every key
present in the stored entry is still present after the merge — and a
stored field keeps its previous value whenever the discovered entry
supplies no non-`None` value for that key, except for the `auto_source`
back-fill of LU/DE entries; but a non-`None` discovered value does
overwrite the stored one. -/
theorem C8_theorem :
    (∀ (existing entry : AutoRegistry.Entry) (k : String),
        (AutoRegistry.dictGet existing k).isSome →
        (AutoRegistry.dictGet (AutoRegistry.merge_entry existing entry) k).isSome) ∧
    (∀ (existing entry : AutoRegistry.Entry) (k : String),
        k ≠ "auto_source" →
        (∀ v, (k, v) ∈ entry → v = none) →
        AutoRegistry.dictGet (AutoRegistry.merge_entry existing entry) k
          = AutoRegistry.dictGet existing k) := by
  constructor
  · intro existing entry k h
    unfold AutoRegistry.merge_entry
    exact autoSourceFill_presence _ _
      (autoSourceFill_presence _ _ (mergeFold_presence entry existing k h))
  · intro existing entry k hk hnone
    unfold AutoRegistry.merge_entry
    rw [autoSourceFill_skip _ _ hk, autoSourceFill_skip _ _ hk,
      mergeFold_skip entry k existing hnone]

/-- Claim C8, witness: a stored entry with `name`, `tickers` and
`domicile` merged with a discovered entry carrying only `None` values
keeps `tickers` present and `name` unchanged. -/
theorem C8_witness :
    (AutoRegistry.dictGet
        (AutoRegistry.merge_entry
          [("name", some (.str "Old Name")),
           ("tickers", some (.list ["SPY"])),
           ("domicile", some (.str "US"))]
          [("share_class_isin", none), ("name", none)])
        "tickers").isSome ∧
    AutoRegistry.dictGet
        (AutoRegistry.merge_entry
          [("name", some (.str "Old Name")),
           ("tickers", some (.list ["SPY"])),
           ("domicile", some (.str "US"))]
          [("share_class_isin", none), ("name", none)])
        "name"
      = AutoRegistry.dictGet
          [("name", some (.str "Old Name")),
           ("tickers", some (.list ["SPY"])),
           ("domicile", some (.str "US"))]
          "name" := by
  constructor
  · exact C8_theorem.1 _ _ "tickers" (by decide)
  · exact C8_theorem.2 _ _ "name" (by decide)
      (by intro v hv; simp at hv; exact hv)

/-- Claim C5: `ingest_fund` is meant to backtrack across discovered
candidates and return `False` after exhausting them, but the download
call inside the loop (`ingest_nport.py` lines 178-184) passes a
`fund_name=` keyword that `NPORTDownloader.download_filing`
(`nport_download.py` line 34) does not accept, so the very first
candidate raises `TypeError` and the run never reaches the backtracking
or the `return False`. -/
theorem C5_theorem :
    CC.IngestNPORT.kwargsBindOk = false ∧
    CC.IngestNPORT.ingest_fund CC.envC5 "SPY" none true
      = .error .typeErrorUnexpectedKwarg := by
  refine ⟨by decide, ?_⟩
  with_unfolding_all rfl

/-- Claim C6: with `force = false` and no explicit target date, a
registered CIK-bearing fund whose latest persisted snapshot is younger
than its freshness window returns success immediately, with an empty
trace of suspending operations (no discovery, download or parse). -/
theorem C6_theorem (env : IngestNPORT.IngestEnv) (fund_id : String)
    (cfg : IngestNPORT.FundConfig) (cik : String) (latest : ℤ)
    (hcfg : env.registry.lookup fund_id = some cfg)
    (hcik : cfg.cik = some cik)
    (hlatest : IngestNPORT.get_latest_as_of env
        (IngestNPORT.get_fund_name cfg fund_id) = some latest)
    (hfresh : env.today - latest < cfg.freshness_days.getD 30) :
    IngestNPORT.ingest_fund env fund_id none false = .ok (true, []) := by
  unfold IngestNPORT.ingest_fund
  simp [hcfg, hcik, hlatest, hfresh]

/-- Claim C3: when the `weight_pct` column is present, a weight sum
outside `[99.5, 100.5]` fails the weight-sum check and therefore the
whole QA run (`status = "fail"`, any failed check being fatal), and a
weight sum inside the interval passes the weight-sum check. -/
theorem C3_theorem (df : NPORTQA.QAFrame) (fund_id as_of : String)
    (hw : df.hasWeightPct = true) :
    ((sumOpt (df.rows.map (·.weight_pct)) < NPORTQA.WEIGHT_SUM_MIN ∨
        NPORTQA.WEIGHT_SUM_MAX < sumOpt (df.rows.map (·.weight_pct))) →
      (NPORTQA.validate_holdings df fund_id as_of).status = "fail") ∧
    ((NPORTQA.WEIGHT_SUM_MIN ≤ sumOpt (df.rows.map (·.weight_pct)) ∧
        sumOpt (df.rows.map (·.weight_pct)) ≤ NPORTQA.WEIGHT_SUM_MAX) →
      NPORTQA.Check.weightSum ∈
        (NPORTQA.validate_holdings df fund_id as_of).checks_passed) := by
  by_cases hrows : df.rows.isEmpty
  · constructor
    · intro _
      simp [NPORTQA.validate_holdings, hrows]
    · intro hin
      exfalso
      rw [List.isEmpty_iff] at hrows
      rw [hrows] at hin
      simp only [List.map_nil] at hin
      have h0 : sumOpt ([] : List (Option ℚ)) = 0 := rfl
      rw [h0] at hin
      have := hin.1
      norm_num [NPORTQA.WEIGHT_SUM_MIN] at this
  · constructor
    · intro hout
      have hcond : ¬ (NPORTQA.WEIGHT_SUM_MIN ≤ sumOpt (df.rows.map (·.weight_pct)) ∧
          sumOpt (df.rows.map (·.weight_pct)) ≤ NPORTQA.WEIGHT_SUM_MAX) := by
        rcases hout with h | h
        · exact fun hc => absurd hc.1 (not_le.mpr h)
        · exact fun hc => absurd hc.2 (not_le.mpr h)
      simp [NPORTQA.validate_holdings, hrows, hw, hcond]
    · intro hin
      simp [NPORTQA.validate_holdings, hrows, hw, hin.1, hin.2]

/-- Claim C3, witness: a single-position frame whose `weight_pct` sums
to 50% fails QA. -/
theorem C3_witness :
    (NPORTQA.validate_holdings
        { hasWeightPct := true, hasIsin := false, hasCusip := false,
          hasInstrumentNameRaw := false, hasMarketValueLocal := false,
          hasAsOf := false, hasFundId := false,
          rows := [{ weight_pct := some 50, isin := none, cusip := none }] }
        "SPY" "2024-06-30").status = "fail" :=
  (C3_theorem _ "SPY" "2024-06-30" rfl).1
    (Or.inl (by
      norm_num [sumOpt, NPORTQA.WEIGHT_SUM_MIN, List.filterMap_cons,
        List.filterMap_nil]))

/-- Claim C7: BDIF discovery degrades, never raises — (i) when every
request attempt fails, all query strategies are exhausted and the result
is the empty list; (ii) when no returned record's own ISIN field matches
the requested ISIN (including the zero-match case), the result is the
empty list; (iii) `_get_json` performs at most `MAX_RETRIES = 3`
attempts; (iv) when every attempt fails it makes exactly 3 attempts with
backoff sleeps `2·1, 2·2` seconds and returns no payload.  Totality of
`discover_reports` (no exception escapes) is by construction of its
`List`-valued type. -/
theorem C7_theorem :
    (∀ (oracle : ℕ → ℕ → Except Unit BDIFDiscovery.Payload) (isin : String)
        (target : Option ℤ),
        (∀ qi a, oracle qi a = .error ()) →
        BDIFDiscovery.discover_reports oracle isin target = []) ∧
    (∀ (oracle : ℕ → ℕ → Except Unit BDIFDiscovery.Payload) (isin : String)
        (target : Option ℤ),
        (∀ qi a p, oracle qi a = .ok p → ∀ r ∈ p.records, r.isinField ≠ isin) →
        BDIFDiscovery.discover_reports oracle isin target = []) ∧
    (∀ oracle1 : ℕ → Except Unit BDIFDiscovery.Payload,
        (BDIFDiscovery.get_json oracle1).2.1 ≤ BDIFDiscovery.MAX_RETRIES) ∧
    (∀ oracle1 : ℕ → Except Unit BDIFDiscovery.Payload,
        (∀ a, oracle1 a = .error ()) →
        BDIFDiscovery.get_json oracle1
          = (none, BDIFDiscovery.MAX_RETRIES,
             [BDIFDiscovery.BACKOFF_SECONDS * 1, BDIFDiscovery.BACKOFF_SECONDS * 2])) := by
  refine ⟨?_, ?_, ?_, ?_⟩
  · intro oracle isin target h
    unfold BDIFDiscovery.discover_reports
    rw [discoverGo_all_skip oracle isin target
      (fun qi => Or.inl (by rw [get_json_all_error (oracle qi) (fun a => h qi a)]))]
    rfl
  · intro oracle isin target h
    unfold BDIFDiscovery.discover_reports
    rw [discoverGo_all_skip oracle isin target ?_]
    · rfl
    · intro qi
      right
      intro p hp
      obtain ⟨i, hi⟩ := getJsonAux_ok (oracle qi) BDIFDiscovery.MAX_RETRIES 1 p hp
      have hrecs : p.records.filterMap (BDIFDiscovery.processRecord isin target) = [] :=
        List.filterMap_eq_nil_iff.mpr (fun r hr => by
          simp [BDIFDiscovery.processRecord, h qi i p hi r hr])
      rw [hrecs]
      rfl
  · intro oracle1
    exact getJsonAux_attempts_le oracle1 BDIFDiscovery.MAX_RETRIES 1
  · intro oracle1 h
    exact get_json_all_error oracle1 h

/-- Claim C7, witness: a permanently failing API and an API returning a
single record for a different ISIN both yield `[]`; the failing API is
asked exactly three times. -/
theorem C7_witness :
    BDIFDiscovery.discover_reports (fun _ _ => .error ()) "FR0011550185" none
      = [] ∧
    BDIFDiscovery.discover_reports
        (fun _ _ => .ok
          { nhits := 1,
            records := [{ recordid := "r1", isinField := "FR0000000000",
                          urlField := some "u", datAmf := some 1,
                          datMar := none, datEmt := none, codDif := "",
                          sousType := "", typeInf := "", titInf := none,
                          codeIsinNom := "" }] })
        "FR0011550185" none = [] ∧
    (BDIFDiscovery.get_json (fun _ => .error ())).2.1
      ≤ BDIFDiscovery.MAX_RETRIES ∧
    BDIFDiscovery.get_json (fun _ => .error ())
      = (none, BDIFDiscovery.MAX_RETRIES,
         [BDIFDiscovery.BACKOFF_SECONDS * 1, BDIFDiscovery.BACKOFF_SECONDS * 2]) := by
  refine ⟨?_, ?_, ?_, ?_⟩
  · exact C7_theorem.1 _ _ _ (fun _ _ => rfl)
  · exact C7_theorem.2.1 _ _ _ (fun qi a p hp r hr => by
      cases hp
      simp only [List.mem_singleton] at hr
      subst hr
      decide)
  · exact C7_theorem.2.2.1 _
  · exact C7_theorem.2.2.2 _ (fun _ => rfl)

/-- Claim C1, counterexample: re-ingesting the same `(fund, as_of)` does
not create a `version = max + 1` snapshot — `_save_gold` writes to the
fixed path `funds/SPY/2024-06-30/holdings.csv` both times, so the second
run overwrites the first (`_next_version` exists but is not used by the
save path). -/
theorem C1_counterexample :
    IngestNPORT.storeGet
        (IngestNPORT.save_gold
          (IngestNPORT.save_gold [] "SPY" "2024-06-30" "gold-run-1").1
          "SPY" "2024-06-30" "gold-run-2").1
        (IngestNPORT.goldPath "SPY" "2024-06-30")
      ≠ some "gold-run-1" ∧
    (IngestNPORT.save_gold
        (IngestNPORT.save_gold [] "SPY" "2024-06-30" "gold-run-1").1
        "SPY" "2024-06-30" "gold-run-2").2
      = (IngestNPORT.save_gold [] "SPY" "2024-06-30" "gold-run-1").2 := by
  decide

/-- Claim C1, amended: (i) `_save_gold` always writes the snapshot to the
version-less path `funds/<fund>/<as_of>/holdings.csv`, replacing any
previous content at that path — re-ingestion overwrites instead of
creating version `max + 1`; (ii) when no explicit `as_of` is requested,
`_discover_snapshot` returns a candidate that is maximal in the
`(as_of, version)` lexicographic order among all candidates; (iii) every
candidate carries `version = 1` in the simplified store, so the maximum
is the latest `as_of`. -/
theorem C1_theorem :
    (∀ (st : IngestNPORT.GoldStore) (f d c : String),
        IngestNPORT.storeGet (IngestNPORT.save_gold st f d c).1
          (IngestNPORT.goldPath f d) = some c) ∧
    (∀ (dirs : List PrimaryHoldings.DirScan) (target : Option ℤ)
        (sel : PrimaryHoldings.SnapshotHandle),
        PrimaryHoldings.discover_snapshot dirs target = some sel →
        sel ∈ PrimaryHoldings.discover_candidates dirs target ∧
        ∀ c ∈ PrimaryHoldings.discover_candidates dirs target,
          (toLex (c.as_of, c.version) : ℤ ×ₗ ℕ) ≤ toLex (sel.as_of, sel.version)) ∧
    (∀ (dirs : List PrimaryHoldings.DirScan) (target : Option ℤ)
        (c : PrimaryHoldings.SnapshotHandle),
        c ∈ PrimaryHoldings.discover_candidates dirs target → c.version = 1) := by
  refine ⟨?_, ?_, ?_⟩
  · intro st f d c
    exact alistGet_alistSet_self st (IngestNPORT.goldPath f d) c
  · intro dirs target sel hsel
    unfold PrimaryHoldings.discover_snapshot at hsel
    by_cases hemp : (PrimaryHoldings.discover_candidates dirs target).isEmpty
    · rw [if_pos hemp] at hsel; cases hsel
    · rw [if_neg hemp] at hsel
      have hperm := sortAscBy_perm
        (fun s : PrimaryHoldings.SnapshotHandle => toLex (s.as_of, s.version))
        (PrimaryHoldings.discover_candidates dirs target)
      constructor
      · exact hperm.mem_iff.mp (List.mem_of_mem_getLast? hsel)
      · intro c hc
        exact pairwise_getLast_max
          (fun a b : PrimaryHoldings.SnapshotHandle =>
            (toLex (a.as_of, a.version) : ℤ ×ₗ ℕ) ≤ toLex (b.as_of, b.version))
          (fun a => le_refl _) _
          (sortAscBy_pairwise
            (fun s : PrimaryHoldings.SnapshotHandle => toLex (s.as_of, s.version))
            (PrimaryHoldings.discover_candidates dirs target))
          sel hsel c (hperm.mem_iff.mpr hc)
  · intro dirs target c hc
    rw [PrimaryHoldings.discover_candidates, List.mem_filterMap] at hc
    obtain ⟨d, _, hd⟩ := hc
    cases hdate : d.date? with
    | none => rw [hdate] at hd; cases hd
    | some dt =>
        rw [hdate] at hd
        simp only at hd
        split at hd
        · cases hd
        · split at hd
          · cases hd
            rfl
          · cases hd

/-- Claim C1, witness: over a listing with date directories 100, 200, an
unparseable name and a date directory without `holdings.csv`,
`_discover_snapshot` selects `(as_of = 200, version = 1)`, the maximal
`(as_of, version)` among the candidates. -/
theorem C1_witness :
    PrimaryHoldings.discover_snapshot
        [{ date? := some 100, hasHoldingsCsv := true },
         { date? := some 200, hasHoldingsCsv := true },
         { date? := none, hasHoldingsCsv := true },
         { date? := some 150, hasHoldingsCsv := false }] none
      = some { as_of := 200, version := 1 } ∧
    ({ as_of := 200, version := 1 } : PrimaryHoldings.SnapshotHandle) ∈
      PrimaryHoldings.discover_candidates
        [{ date? := some 100, hasHoldingsCsv := true },
         { date? := some 200, hasHoldingsCsv := true },
         { date? := none, hasHoldingsCsv := true },
         { date? := some 150, hasHoldingsCsv := false }] none ∧
    ({ as_of := 200, version := 1 } : PrimaryHoldings.SnapshotHandle).version
      = 1 := by
  have heval : PrimaryHoldings.discover_snapshot
      [{ date? := some 100, hasHoldingsCsv := true },
       { date? := some 200, hasHoldingsCsv := true },
       { date? := none, hasHoldingsCsv := true },
       { date? := some 150, hasHoldingsCsv := false }] none
      = some { as_of := 200, version := 1 } := by
    with_unfolding_all rfl
  refine ⟨heval, (C1_theorem.2.1 _ _ _ heval).1, ?_⟩
  exact C1_theorem.2.2 _ none _ (C1_theorem.2.1 _ _ _ heval).1

/-- Claim C4: for a raw holdings frame carrying the parser's
`market_value_local` column, enrichment keeps every row (shorts
included), sets `weight_pct = positive market value / sum of positive
market values × 100` when that denominator is positive (so negative
values contribute zero to the denominator — it sums `posPart` — and
`posPart v = 0` gives short rows zero weight), and when the positive
total is not positive — in particular when no market value is present at
all, which forces the total to 0 — every row gets zero weight and the
zero-total warning is emitted; enrichment is total and never fails. -/
theorem C4_theorem (cmap : Option (List (String × String)))
    (df : NPORTEnrichment.EFrame)
    (hmv : df.hasMvLocal = true) (hne : df.rows.isEmpty = false) :
    (NPORTEnrichment.enrich_holdings cmap df).1.rows.length
      = df.rows.length ∧
    (0 < NPORTEnrichment.total_value df →
      NPORTEnrichment.weightPctCol (NPORTEnrichment.enrich_holdings cmap df).1
        = some (df.rows.map (fun r => r.market_value_local.map
            (fun v => NPORTEnrichment.posPart v /
              NPORTEnrichment.total_value df * 100)))) ∧
    (∀ v : ℚ, v < 0 → NPORTEnrichment.posPart v = 0) ∧
    (¬ 0 < NPORTEnrichment.total_value df →
      NPORTEnrichment.weightPctCol (NPORTEnrichment.enrich_holdings cmap df).1
        = some (df.rows.map (fun _ => some (0 : ℚ))) ∧
      NPORTEnrichment.EWarning.zeroOrNegativeTotal
        ∈ (NPORTEnrichment.enrich_holdings cmap df).2) ∧
    ((∀ r ∈ df.rows, r.market_value_local = none) →
      NPORTEnrichment.total_value df = 0) := by
  obtain ⟨hw, hwarn⟩ := enrich_weight_warn cmap df hne
  refine ⟨enrich_length cmap df, ?_, ?_, ?_, ?_⟩
  · intro ht
    rw [hw, hmv, if_pos rfl, if_pos ht]
  · intro v hv
    unfold NPORTEnrichment.posPart
    exact if_pos hv
  · intro ht
    constructor
    · rw [hw, hmv, if_pos rfl, if_neg ht]
    · rw [hwarn, hmv, if_pos rfl, if_neg ht]
      exact List.mem_singleton_self _
  · intro hall
    unfold NPORTEnrichment.total_value
    have hcells : df.rows.map
        (fun r => r.market_value_local.map NPORTEnrichment.posPart)
        = df.rows.map (fun _ => (none : Option ℚ)) :=
      List.map_congr_left (fun r hr => by rw [hall r hr]; rfl)
    rw [hcells]
    unfold sumOpt
    rw [List.filterMap_map]
    rw [show List.filterMap (id ∘ fun _ => (none : Option ℚ)) df.rows = []
      from List.filterMap_eq_nil_iff.mpr (fun a _ => rfl)]
    rfl

/-- Claim C4, witness: market values `[60, 40, -50]` give
`total_value = 100` and weights `[60%, 40%, 0%]` — the short row is kept
with zero weight and excluded from the denominator. -/
theorem C4_witness :
    0 < NPORTEnrichment.total_value dfC4 ∧
    NPORTEnrichment.weightPctCol
        (NPORTEnrichment.enrich_holdings none dfC4).1
      = some [some 60, some 40, some 0] := by
  have hpos : 0 < NPORTEnrichment.total_value dfC4 := by
    with_unfolding_all decide
  refine ⟨hpos, ?_⟩
  rw [(C4_theorem none dfC4 rfl rfl).2.1 hpos]
  with_unfolding_all rfl

/-- Claim C9: enrichment is idempotent on the country, asset-class and
weight columns — re-running `enrich_holdings` on its own output
recomputes them from the unchanged raw columns, yielding the same
values (column presence included). -/
theorem C9_theorem (cmap : Option (List (String × String)))
    (df : NPORTEnrichment.EFrame) :
    NPORTEnrichment.countryCol
        (NPORTEnrichment.enrich_holdings cmap
          (NPORTEnrichment.enrich_holdings cmap df).1).1
      = NPORTEnrichment.countryCol
          (NPORTEnrichment.enrich_holdings cmap df).1 ∧
    NPORTEnrichment.assetClassCol
        (NPORTEnrichment.enrich_holdings cmap
          (NPORTEnrichment.enrich_holdings cmap df).1).1
      = NPORTEnrichment.assetClassCol
          (NPORTEnrichment.enrich_holdings cmap df).1 ∧
    NPORTEnrichment.weightPctCol
        (NPORTEnrichment.enrich_holdings cmap
          (NPORTEnrichment.enrich_holdings cmap df).1).1
      = NPORTEnrichment.weightPctCol
          (NPORTEnrichment.enrich_holdings cmap df).1 := by
  by_cases hemp : df.rows.isEmpty = true
  · have h1 : NPORTEnrichment.enrich_holdings cmap df = (df, []) := by
      unfold NPORTEnrichment.enrich_holdings
      simp [hemp]
    rw [h1]
    rw [h1]
    exact ⟨rfl, rfl, rfl⟩
  · have hne : df.rows.isEmpty = false := by
      cases h : df.rows.isEmpty
      · rfl
      · exact absurd h hemp
    have hraws := enrich_preserves_raws cmap df
    have hlen := enrich_length cmap df
    have hne1 : (NPORTEnrichment.enrich_holdings cmap df).1.rows.isEmpty
        = false := by
      cases h : (NPORTEnrichment.enrich_holdings cmap df).1.rows.isEmpty
      · rfl
      · exfalso
        rw [List.isEmpty_iff.mp h] at hlen
        exact hemp (List.isEmpty_iff.mpr
          (List.length_eq_zero.mp hlen.symm))
    refine ⟨?_, ?_, ?_⟩
    · rw [enrich_countryCol cmap _ hne1, hraws.1]
      by_cases h : df.hasCountryRaw = true
      · rw [h, if_pos rfl, enrich_countryCol cmap df hne, h, if_pos rfl]
        congr 1
        have hfac : ∀ l : List NPORTEnrichment.ERow,
            l.map (fun r => some (NPORTEnrichment.applyMap
              NPORTEnrichment.country_map
              (NPORTEnrichment.pyUpper (r.country_raw.getD "UNKNOWN"))))
              = (l.map (fun r => r.country_raw)).map
                  (fun o => some (NPORTEnrichment.applyMap
                    NPORTEnrichment.country_map
                    (NPORTEnrichment.pyUpper (o.getD "UNKNOWN")))) :=
          fun l => by rw [List.map_map]; rfl
        rw [hfac, hraws.2.2.2.1, ← hfac]
      · have hf : df.hasCountryRaw = false := by
          cases hv : df.hasCountryRaw
          · rfl
          · exact absurd hv h
        rw [hf]
        simp
    · rw [enrich_assetClassCol cmap _ hne1, hraws.2.1]
      by_cases h : df.hasCategoryRaw = true
      · rw [h, if_pos rfl, enrich_assetClassCol cmap df hne, h, if_pos rfl]
        congr 1
        have hfac : ∀ l : List NPORTEnrichment.ERow,
            l.map (fun r => some (NPORTEnrichment.applyMap
              NPORTEnrichment.asset_class_map
              (NPORTEnrichment.pyTitle (r.category_raw.getD "Unknown"))))
              = (l.map (fun r => r.category_raw)).map
                  (fun o => some (NPORTEnrichment.applyMap
                    NPORTEnrichment.asset_class_map
                    (NPORTEnrichment.pyTitle (o.getD "Unknown")))) :=
          fun l => by rw [List.map_map]; rfl
        rw [hfac, hraws.2.2.2.2.1, ← hfac]
      · have hf : df.hasCategoryRaw = false := by
          cases hv : df.hasCategoryRaw
          · rfl
          · exact absurd hv h
        rw [hf]
        simp
    · have htote : NPORTEnrichment.total_value
          (NPORTEnrichment.enrich_holdings cmap df).1
          = NPORTEnrichment.total_value df := by
        unfold NPORTEnrichment.total_value
        have hfac : ∀ l : List NPORTEnrichment.ERow,
            l.map (fun r => r.market_value_local.map NPORTEnrichment.posPart)
              = (l.map (fun r => r.market_value_local)).map
                  (fun o => o.map NPORTEnrichment.posPart) :=
          fun l => by rw [List.map_map]; rfl
        rw [hfac, hraws.2.2.2.2.2, ← hfac]
      rw [(enrich_weight_warn cmap _ hne1).1, hraws.2.2.1, htote]
      by_cases hm : df.hasMvLocal = true
      · rw [hm, if_pos rfl]
        by_cases ht : 0 < NPORTEnrichment.total_value df
        · rw [if_pos ht, (enrich_weight_warn cmap df hne).1, hm, if_pos rfl,
            if_pos ht]
          congr 1
          have hfac : ∀ l : List NPORTEnrichment.ERow,
              l.map (fun r => r.market_value_local.map
                (fun v => NPORTEnrichment.posPart v /
                  NPORTEnrichment.total_value df * 100))
                = (l.map (fun r => r.market_value_local)).map
                    (fun o => o.map (fun v => NPORTEnrichment.posPart v /
                      NPORTEnrichment.total_value df * 100)) :=
            fun l => by rw [List.map_map]; rfl
          rw [hfac, hraws.2.2.2.2.2, ← hfac]
        · rw [if_neg ht, (enrich_weight_warn cmap df hne).1, hm, if_pos rfl,
            if_neg ht]
          congr 1
          rw [List.map_const', List.map_const', hlen]
      · have hf : df.hasMvLocal = false := by
          cases hv : df.hasMvLocal
          · rfl
          · exact absurd hv hm
        rw [hf]
        simp

/-- Claim C6, witness: in `envC6` the snapshot is 10 days old against a
default 30-day window, so ingestion returns `True` with no suspending
operation. -/
theorem C6_witness :
    IngestNPORT.ingest_fund envC6 "SPY" none false = .ok (true, []) :=
  C6_theorem envC6 "SPY"
    { cik := some "0000884394", series_id := none, class_id := none,
      freshness_days := none, tickers := ["SPY"] }
    "0000884394" 19990 (by decide) rfl (by decide) (by decide)

/-- Claim C2, counterexample: `max_positions = 0` on the non-empty
three-position snapshot `dfC2` succeeds with `min 0 3 = 0` rows, but the
returned `Weight` column sums to `0`, not to `1.0` within `1e-6` as the
claim asserts for *every* requested `max_positions`. -/
theorem C2_counterexample :
    PrimaryHoldings.prepare_holdings dfC2 (some 0) = .ok [] ∧
    ([] : List PrimaryHoldings.PrepRow).length = min 0 dfC2.rows.length ∧
    sumOpt (([] : List PrimaryHoldings.PrepRow).map (fun r => r.weight)) = 0 ∧
    ¬(|sumOpt (([] : List PrimaryHoldings.PrepRow).map (fun r => r.weight))
        - 1| ≤ 1 / 1000000) := by
  refine ⟨?_, rfl, rfl, ?_⟩
  · with_unfolding_all rfl
  · simp only [List.map_nil, sumOpt_nil]
    norm_num

/-- Claim C2 (amended): for every loadable snapshot and every requested
`max_positions = n` with `n ≥ 1`, whenever `_prepare_holdings` succeeds
it returns exactly `min n available` rows whose `Weight` column sums to
exactly `1` (hence certainly within `1e-6` of `1.0`), regardless of
which raw weight column or market-value column populated the series;
for `n = 0` it instead returns zero rows whose weights sum to `0`. -/
theorem C2_theorem (df : PrimaryHoldings.PHFrame) (n : ℕ)
    (out : List PrimaryHoldings.PrepRow)
    (h : PrimaryHoldings.prepare_holdings df (some n) = .ok out)
    (hn : 1 ≤ n) :
    out.length = min n df.rows.length ∧
    sumOpt (out.map (fun r => r.weight)) = 1 ∧
    |sumOpt (out.map (fun r => r.weight)) - 1| ≤ 1 / 1000000 := by
  unfold PrimaryHoldings.prepare_holdings at h
  split at h
  · cases h
  · cases hsel : PrimaryHoldings.selectSeries df with
    | error e =>
        rw [hsel] at h
        exact Except.noConfusion h
    | ok ws =>
        rw [hsel] at h
        have h2 : PrimaryHoldings.finishHoldings df (some n) ws = .ok out := h
        have hlen := selectSeries_length df ws hsel
        have hspec := finishHoldings_spec df ws n out hlen h2 hn
        refine ⟨hspec.1, hspec.2, ?_⟩
        rw [hspec.2]
        norm_num

/-- Claim C2, witness: `dfC2` truncated to `max_positions = 2` yields
`min 2 3 = 2` rows with weights `12/17` and `5/17`, summing to `1`. -/
theorem C2_witness :
    outC2.length = min 2 dfC2.rows.length ∧
    sumOpt (outC2.map (fun r => r.weight)) = 1 ∧
    |sumOpt (outC2.map (fun r => r.weight)) - 1| ≤ 1 / 1000000 :=
  C2_theorem dfC2 2 outC2 (by with_unfolding_all rfl) (by decide)

end CC
